import Mathlib

/-!
Shallow embedding of the project-tracking core of this repository:
`src/agent/data_store.py` (ProjectDataStore), `src/agent/task_manager.py`
(TaskManager) and `src/agent/project_manager.py` (ProjectManager).

The filesystem is modelled as an explicit `Store` value (a set of existing
category directories plus an association list of files), JSON documents as an
inductive `Json` type, and every `datetime.utcnow()` call site receives its
clock reading as an explicit `DateTime` argument.  Calls to the external
chat-completion collaborator are modelled by an injected
`Except String String` outcome (error message, or returned text), mirroring
the spec's treatment of the collaborator as an external capability.
-/

set_option autoImplicit false

namespace ProjectTracker

/-- JSON-compatible values, the contents of the persisted `.json` documents.
Objects are association lists in insertion order, matching Python dicts. -/
inductive Json where
  | null
  | bool (b : Bool)
  | num (n : Int)
  | str (s : String)
  | arr (elems : List Json)
  | obj (fields : List (String × Json))

/-- Python dict lookup `d.get(k)`: first binding of the key, if any. -/
def getKey : List (String × Json) → String → Option Json
  | [], _ => none
  | (k, v) :: rest, key => if k = key then some v else getKey rest key

/-- Python dict assignment `d[k] = v`: replace the binding in place if the key
is present, otherwise append it (insertion-order semantics). -/
def setKey : List (String × Json) → String → Json → List (String × Json)
  | [], key, val => [(key, val)]
  | (k, v) :: rest, key, val =>
      if k = key then (k, val) :: rest else (k, v) :: setKey rest key val

/-- Python truthiness of a parsed-JSON value (`if not task:` and friends). -/
def Json.truthy : Json → Bool
  | .null => false
  | .bool b => b
  | .num n => n != 0
  | .str s => s != ""
  | .arr l => !l.isEmpty
  | .obj l => !l.isEmpty

/-- A UTC clock reading as produced by `datetime.utcnow()`. -/
structure DateTime where
  year : Nat
  month : Nat
  day : Nat
  hour : Nat
  minute : Nat
  second : Nat
  microsecond : Nat
deriving DecidableEq

/-- Calendar bounds satisfied by every real `datetime.utcnow()` reading. -/
def DateTime.Valid (t : DateTime) : Prop :=
  t.year < 10000 ∧ 1 ≤ t.month ∧ t.month ≤ 12 ∧ 1 ≤ t.day ∧ t.day ≤ 31 ∧
  t.hour < 24 ∧ t.minute < 60 ∧ t.second < 60 ∧ t.microsecond < 1000000

instance (t : DateTime) : Decidable t.Valid := by
  unfold DateTime.Valid; infer_instance

/-- Chronological strict order at second resolution: lexicographic on the
fields that `strftime("%Y%m%d_%H%M%S")` renders. -/
def DateTime.secLt (a b : DateTime) : Prop :=
  a.year < b.year ∨ (a.year = b.year ∧
    (a.month < b.month ∨ (a.month = b.month ∧
      (a.day < b.day ∨ (a.day = b.day ∧
        (a.hour < b.hour ∨ (a.hour = b.hour ∧
          (a.minute < b.minute ∨ (a.minute = b.minute ∧
            a.second < b.second)))))))))

instance (a b : DateTime) : Decidable (a.secLt b) := by
  unfold DateTime.secLt; infer_instance

/-- Full chronological strict order, refining `secLt` by microseconds. -/
def DateTime.chronoLt (a b : DateTime) : Prop :=
  a.secLt b ∨
    (a.year = b.year ∧ a.month = b.month ∧ a.day = b.day ∧ a.hour = b.hour ∧
     a.minute = b.minute ∧ a.second = b.second ∧ a.microsecond < b.microsecond)

instance (a b : DateTime) : Decidable (a.chronoLt b) := by
  unfold DateTime.chronoLt; infer_instance

/-- Chronological reflexive order on clock readings. -/
def DateTime.chronoLe (a b : DateTime) : Prop :=
  a.chronoLt b ∨ a = b

instance (a b : DateTime) : Decidable (a.chronoLe b) := by
  unfold DateTime.chronoLe; infer_instance

/-- The ASCII digit character for a value below ten. -/
def digitChar (n : Nat) : Char := Char.ofNat (48 + n)

/-- Two-digit zero-padded decimal rendering (`%m`, `%d`, `%H`, `%M`, `%S`). -/
def pad2 (n : Nat) : List Char :=
  [digitChar (n / 10 % 10), digitChar (n % 10)]

/-- Four-digit zero-padded decimal rendering (`%Y`). -/
def pad4 (n : Nat) : List Char :=
  [digitChar (n / 1000 % 10), digitChar (n / 100 % 10),
   digitChar (n / 10 % 10), digitChar (n % 10)]

/-- Six-digit zero-padded decimal rendering (isoformat microseconds). -/
def pad6 (n : Nat) : List Char :=
  [digitChar (n / 100000 % 10), digitChar (n / 10000 % 10),
   digitChar (n / 1000 % 10), digitChar (n / 100 % 10),
   digitChar (n / 10 % 10), digitChar (n % 10)]

/-- Character sequence of `strftime("%Y%m%d_%H%M%S")`. -/
def tsChars (t : DateTime) : List Char :=
  pad4 t.year ++ pad2 t.month ++ pad2 t.day ++ '_' ::
    (pad2 t.hour ++ pad2 t.minute ++ pad2 t.second)

/-- The timestamp names used for task ids and analysis files:
`datetime.utcnow().strftime("%Y%m%d_%H%M%S")`. -/
def strftimeCompact (t : DateTime) : String := ⟨tsChars t⟩

/-- Character sequence of `datetime.isoformat()`: the microsecond part is
omitted exactly when the microsecond field is zero, as in Python. -/
def isoChars (t : DateTime) : List Char :=
  pad4 t.year ++ '-' :: (pad2 t.month ++ '-' :: (pad2 t.day ++ 'T' ::
    (pad2 t.hour ++ ':' :: (pad2 t.minute ++ ':' :: (pad2 t.second ++
      (if t.microsecond = 0 then [] else '.' :: pad6 t.microsecond))))))

/-- The timestamps stored in records: `datetime.utcnow().isoformat()`. -/
def isoformat (t : DateTime) : String := ⟨isoChars t⟩

/-- Numeric value of an ASCII digit character, if it is one. -/
def digitVal (c : Char) : Option Nat :=
  if 48 ≤ c.toNat ∧ c.toNat ≤ 57 then some (c.toNat - 48) else none

/-- Sequencing of parse steps (Option bind, spelled out for easy rewriting). -/
def pstep {α β : Type} : Option α → (α → Option β) → Option β
  | none, _ => none
  | some a, f => f a

@[simp] theorem pstep_some {α β : Type} (a : α) (f : α → Option β) :
    pstep (some a) f = f a := rfl

@[simp] theorem pstep_none {α β : Type} (f : α → Option β) :
    pstep (none : Option α) f = none := rfl

/-- Consume two digit characters as a two-digit decimal number. -/
def read2 : List Char → Option (Nat × List Char)
  | c1 :: c0 :: rest =>
      pstep (digitVal c1) fun d1 =>
      pstep (digitVal c0) fun d0 =>
      some (d1 * 10 + d0, rest)
  | _ => none

/-- Consume four digit characters as a four-digit decimal number. -/
def read4 : List Char → Option (Nat × List Char)
  | c3 :: c2 :: c1 :: c0 :: rest =>
      pstep (digitVal c3) fun d3 =>
      pstep (digitVal c2) fun d2 =>
      pstep (digitVal c1) fun d1 =>
      pstep (digitVal c0) fun d0 =>
      some (((d3 * 10 + d2) * 10 + d1) * 10 + d0, rest)
  | _ => none

/-- Consume six digit characters as a six-digit decimal number. -/
def read6 : List Char → Option (Nat × List Char)
  | c5 :: c4 :: c3 :: c2 :: c1 :: c0 :: rest =>
      pstep (digitVal c5) fun d5 =>
      pstep (digitVal c4) fun d4 =>
      pstep (digitVal c3) fun d3 =>
      pstep (digitVal c2) fun d2 =>
      pstep (digitVal c1) fun d1 =>
      pstep (digitVal c0) fun d0 =>
      some (((((d5 * 10 + d4) * 10 + d3) * 10 + d2) * 10 + d1) * 10 + d0, rest)
  | _ => none

/-- Consume one expected literal character. -/
def expectChar (c : Char) : List Char → Option (List Char)
  | d :: rest => if d = c then some rest else none
  | [] => none

/-- Parse a string produced by `datetime.isoformat()` back into its fields. -/
def parseIso (s : String) : Option DateTime :=
  pstep (read4 s.data) fun (y, r) =>
  pstep (expectChar '-' r) fun r =>
  pstep (read2 r) fun (mo, r) =>
  pstep (expectChar '-' r) fun r =>
  pstep (read2 r) fun (d, r) =>
  pstep (expectChar 'T' r) fun r =>
  pstep (read2 r) fun (h, r) =>
  pstep (expectChar ':' r) fun r =>
  pstep (read2 r) fun (mi, r) =>
  pstep (expectChar ':' r) fun r =>
  pstep (read2 r) fun (sec, r) =>
  match r with
  | [] => some ⟨y, mo, d, h, mi, sec, 0⟩
  | '.' :: r' =>
      pstep (read6 r') fun (us, r'') =>
      if r''.isEmpty then some ⟨y, mo, d, h, mi, sec, us⟩ else none
  | _ => none

/-- Parse a `strftime("%Y%m%d_%H%M%S")` name back into its fields
(microseconds are not encoded and come back as zero). -/
def parseCompact (s : String) : Option DateTime :=
  pstep (read4 s.data) fun (y, r) =>
  pstep (read2 r) fun (mo, r) =>
  pstep (read2 r) fun (d, r) =>
  pstep (expectChar '_' r) fun r =>
  pstep (read2 r) fun (h, r) =>
  pstep (read2 r) fun (mi, r) =>
  pstep (read2 r) fun (sec, r) =>
  if r.isEmpty then some ⟨y, mo, d, h, mi, sec, 0⟩ else none

/-- Contents of one on-disk file: either a document that parses as JSON, or
raw bytes that `json.load` rejects. -/
inductive FileData where
  | validJson (j : Json)
  | invalidJson

/-- The filesystem below the store root: the set of category directories that
exist, and the files `<root>/<category>/<name>.json`, keyed by
`(category, name)`. -/
structure Store where
  dirs : List String
  files : List ((String × String) × FileData)

/-- Look up the file stored under `(category, name)`. -/
def lookupFile : List ((String × String) × FileData) → String → String →
    Option FileData
  | [], _, _ => none
  | ((c, n), f) :: rest, cat, name =>
      if c = cat ∧ n = name then some f else lookupFile rest cat name

/-- Overwrite or create the file under `(category, name)`. -/
def setFile : List ((String × String) × FileData) → String → String →
    FileData → List ((String × String) × FileData)
  | [], cat, name, f => [((cat, name), f)]
  | ((c, n), g) :: rest, cat, name, f =>
      if c = cat ∧ n = name then ((c, n), f) :: rest
      else ((c, n), g) :: setFile rest cat name f

/-- Python-level failure conditions surfaced by the embedded operations. -/
inductive PyError where
  | fileNotFound
  | jsonDecodeError
  | valueError (msg : String)
  | keyError
  | typeError
  | attributeError
  | runtimeError (msg : String)
deriving DecidableEq

/-- ProjectDataStore.ensure_directories: idempotently create the four fixed
category subdirectories (`reports` is not among them). -/
def ensure_directories (s : Store) : Store :=
  let newDirs :=
    ["tasks", "progress", "metrics", "analyses"].foldl
      (fun ds d => if d ∈ ds then ds else ds ++ [d]) s.dirs
  { s with dirs := newDirs }

/-- A freshly constructed ProjectDataStore over an empty root. -/
def initStore : Store := ensure_directories ⟨[], []⟩

/-- The store after a successful `save_data` write: the document, stamped
with `last_updated`, replaces whatever was at `<category>/<name>.json`. -/
def savedStore (s : Store) (category name : String)
    (data : List (String × Json)) (now : DateTime) : Store :=
  let doc := FileData.validJson
    (.obj (setKey data "last_updated" (.str (isoformat now))))
  { s with files := setFile s.files category name doc }

/-- ProjectDataStore.save_data: stamp `last_updated` with the current
`utcnow().isoformat()` and write the document to
`<root>/<category>/<name>.json`.  `Path.open('w')` does not create parent
directories, so the write fails when the category directory does not exist. -/
def save_data (s : Store) (category name : String)
    (data : List (String × Json)) (now : DateTime) : Except PyError Store :=
  if category ∈ s.dirs then
    .ok (savedStore s category name data now)
  else
    .error .fileNotFound

/-- ProjectDataStore.load_data: `None` when the file does not exist, the
parsed document when it parses, a `json.JSONDecodeError` otherwise. -/
def load_data (s : Store) (category name : String) :
    Except PyError (Option Json) :=
  match lookupFile s.files category name with
  | none => .ok none
  | some (.validJson j) => .ok (some j)
  | some .invalidJson => .error .jsonDecodeError

/-- The stems of the files of one category, in directory order. -/
def catNames (fs : List ((String × String) × FileData)) (cat : String) :
    List String :=
  fs.filterMap (fun e => if e.1.1 = cat then some e.1.2 else none)

/-- ProjectDataStore.list_files: stems of the `.json` files of a category, or
the empty list when the category directory does not exist. -/
def list_files (s : Store) (category : String) : List String :=
  if category ∈ s.dirs then catNames s.files category else []

/-- ProjectDataStore.save_task. -/
def save_task (s : Store) (taskId : String) (data : List (String × Json))
    (now : DateTime) : Except PyError Store :=
  save_data s "tasks" taskId data now

/-- ProjectDataStore.load_task. -/
def load_task (s : Store) (taskId : String) : Except PyError (Option Json) :=
  load_data s "tasks" taskId

/-- ProjectDataStore.save_metrics. -/
def save_metrics (s : Store) (metricsId : String)
    (data : List (String × Json)) (now : DateTime) : Except PyError Store :=
  save_data s "metrics" metricsId data now

/-- ProjectDataStore.save_analysis: a timestamp-named record under
`analyses`; `tName` is the `utcnow()` reading used for the name and `tStamp`
the one `save_data` uses for `last_updated`. -/
def save_analysis (s : Store) (data : List (String × Json))
    (tName tStamp : DateTime) : Except PyError Store :=
  save_data s "analyses" ("analysis_" ++ strftimeCompact tName) data tStamp

/-- Lexicographic strict comparison of character lists, as a boolean. -/
def listCharLt : List Char → List Char → Bool
  | [], [] => false
  | [], _ :: _ => true
  | _ :: _, [] => false
  | a :: as, b :: bs =>
      if a < b then true else if b < a then false else listCharLt as bs

/-- Python's `<` on strings (lexicographic by character), as a boolean. -/
def strLt (s t : String) : Bool := listCharLt s.data t.data

/-- Insert one string into a descending-sorted list, keeping it descending. -/
def insertDesc (x : String) : List String → List String
  | [] => [x]
  | y :: rest => if strLt x y then y :: insertDesc x rest else x :: y :: rest

/-- Python `sorted(names, reverse=True)` on strings: the descending-sorted
permutation (ties are equal strings, so stability does not matter). -/
def sortedDesc (l : List String) : List String :=
  l.foldr insertDesc []

/-- ProjectDataStore.get_latest_analysis: sort the names of `analyses`
descending and load the first; `None` when there are none. -/
def get_latest_analysis (s : Store) : Except PyError (Option Json) :=
  match sortedDesc (list_files s "analyses") with
  | [] => .ok none
  | a :: _ => load_data s "analyses" a

/-- A loaded optional document as it appears inside a composite JSON value
(`None` becomes JSON null). -/
def optJson : Option Json → Json
  | none => .null
  | some j => j

/-- Load every named document of a category in listing order, as the list
comprehensions in `get_project_status` do. -/
def loadAllJson (s : Store) (category : String) :
    List String → Except PyError (List Json)
  | [] => .ok []
  | n :: rest => do
      let j ← load_data s category n
      let l ← loadAllJson s category rest
      pure (optJson j :: l)

/-- ProjectDataStore.get_project_status: the composite status view (returned
here as the fields of the resulting dict). -/
def get_project_status (s : Store) : Except PyError (List (String × Json)) := do
  let taskIds := list_files s "tasks"
  let items ← loadAllJson s "tasks" taskIds
  let progLatest ← load_data s "progress" "latest"
  let progHist ← loadAllJson s "progress" (list_files s "progress")
  let metLatest ← load_data s "metrics" "latest"
  let metHist ← loadAllJson s "metrics" (list_files s "metrics")
  let lastAnalysis ← get_latest_analysis s
  pure [
    ("tasks", .obj [("count", .num (taskIds.length : Int)), ("items", .arr items)]),
    ("progress", .obj [("latest", optJson progLatest), ("history", .arr progHist)]),
    ("metrics", .obj [("latest", optJson metLatest), ("history", .arr metHist)]),
    ("last_analysis", optJson lastAnalysis)]

/-- Python `len()` on a parsed-JSON value; `none` models the `TypeError` on
values without a length. -/
def pyLen : Json → Option Nat
  | .str s => some s.length
  | .arr l => some l.length
  | .obj l => some l.length
  | _ => none

mutual

/-- Models Python `str()` as applied by f-string interpolation: exact for
strings (the raw contents) and scalar literals; containers render repr-style
(quoting without escape-sequence edge cases, which no stored value here
exercises). -/
def pyStr : Json → String
  | .null => "None"
  | .bool true => "True"
  | .bool false => "False"
  | .num n => toString n
  | .str s => s
  | .arr l => "[" ++ pyReprSeq l ++ "]"
  | .obj l => "\x7b" ++ pyReprFields l ++ "\x7d"

/-- Models Python `repr()` on a parsed-JSON value. -/
def pyRepr : Json → String
  | .null => "None"
  | .bool true => "True"
  | .bool false => "False"
  | .num n => toString n
  | .str s => "\x27" ++ s ++ "\x27"
  | .arr l => "[" ++ pyReprSeq l ++ "]"
  | .obj l => "\x7b" ++ pyReprFields l ++ "\x7d"

/-- Comma-separated `repr` of the elements of a list. -/
def pyReprSeq : List Json → String
  | [] => ""
  | [j] => pyRepr j
  | j :: rest => pyRepr j ++ ", " ++ pyReprSeq rest

/-- Comma-separated `repr` of the entries of a dict. -/
def pyReprFields : List (String × Json) → String
  | [] => ""
  | [(k, v)] => "\x27" ++ k ++ "\x27: " ++ pyRepr v
  | (k, v) :: rest => "\x27" ++ k ++ "\x27: " ++ pyRepr v ++ ", " ++ pyReprFields rest

end

/-- TaskManager.create_task: synthesize the timestamp id, run the external
analysis (its failure propagates as `analyze_task`'s RuntimeError before
anything is written), assemble the task record, persist it, return the id.
Each `utcnow()` call site receives its own clock reading. -/
def create_task (s : Store) (title description priority : String)
    (tId : DateTime) (analysisResult : Except String String)
    (tAnalysis tCreated tUpdated tSave : DateTime) :
    Store × Except PyError String :=
  let taskId := "task_" ++ strftimeCompact tId
  match analysisResult with
  | .error msg =>
      (s, .error (.runtimeError ("Failed to analyze task with DeepSeek API: " ++ msg)))
  | .ok text =>
      let analysis : Json :=
        .obj [("analysis", .str text), ("timestamp", .str (isoformat tAnalysis))]
      let taskData : List (String × Json) :=
        [("id", .str taskId), ("title", .str title),
         ("description", .str description), ("priority", .str priority),
         ("status", .str "created"), ("created_at", .str (isoformat tCreated)),
         ("updated_at", .str (isoformat tUpdated)), ("analysis", analysis)]
      match save_task s taskId taskData tSave with
      | .error e => (s, .error e)
      | .ok s' => (s', .ok taskId)

/-- TaskManager.get_task. -/
def get_task (s : Store) (taskId : String) : Except PyError (Option Json) :=
  load_task s taskId

/-- TaskManager.update_task_status: load (a falsy record counts as missing),
set `status`, refresh `updated_at`, optionally append to `progress_history`
(lazily initialized; `if progress_notes:` skips empty notes), save. -/
def update_task_status (s : Store) (taskId status : String)
    (progressNotes : Option String) (tUpd tProg tSave : DateTime) :
    Store × Except PyError Unit :=
  match load_task s taskId with
  | .error e => (s, .error e)
  | .ok t =>
    match t with
    | none => (s, .error (.valueError ("Task " ++ taskId ++ " not found")))
    | some j =>
      if !j.truthy then (s, .error (.valueError ("Task " ++ taskId ++ " not found")))
      else
        match j with
        | .obj fields =>
          let f2 := setKey (setKey fields "status" (.str status))
                      "updated_at" (.str (isoformat tUpd))
          let finish := fun (f3 : List (String × Json)) =>
            match save_task s taskId f3 tSave with
            | .error e => (s, .error e)
            | .ok s' => (s', Except.ok ())
          match progressNotes with
          | some n =>
            if n ≠ "" then
              let entry : Json := .obj [("timestamp", .str (isoformat tProg)),
                                        ("status", .str status), ("notes", .str n)]
              match getKey f2 "progress_history" with
              | none => finish (setKey f2 "progress_history" (.arr [entry]))
              | some (.arr hist) =>
                  finish (setKey f2 "progress_history" (.arr (hist ++ [entry])))
              | some _ => (s, .error .attributeError)
            else finish f2
          | none => finish f2
        | _ => (s, .error .typeError)

/-- One pass of TaskManager.list_tasks over the listed task ids. -/
def listTasksAux (s : Store) (statusFilter : Option String) :
    List String → Except PyError (List Json)
  | [] => .ok []
  | taskId :: rest =>
    match load_task s taskId with
    | .error e => .error e
    | .ok none => listTasksAux s statusFilter rest
    | .ok (some j) =>
      if j.truthy then
        match statusFilter with
        | none => do
            let l ← listTasksAux s statusFilter rest
            pure (j :: l)
        | some st =>
          match j with
          | .obj fields =>
            let statusEq :=
              match getKey fields "status" with
              | some (.str s') => decide (s' = st)
              | _ => false
            if statusEq then do
              let l ← listTasksAux s statusFilter rest
              pure (j :: l)
            else listTasksAux s statusFilter rest
          | _ => .error .attributeError
      else listTasksAux s statusFilter rest

/-- TaskManager.list_tasks. -/
def list_tasks (s : Store) (statusFilter : Option String) :
    Except PyError (List Json) :=
  listTasksAux s statusFilter (list_files s "tasks")

/-- Python `t.get('status') == st` on a listed task: true exactly when the
record is a dict whose `status` value is the given string. -/
def hasStatus (t : Json) (st : String) : Bool :=
  match t with
  | .obj f =>
      match getKey f "status" with
      | some (.str s') => decide (s' = st)
      | _ => false
  | _ => false

/-- Number of listed tasks whose `status` field is the given string. -/
def countStatus (tasks : List Json) (st : String) : Nat :=
  tasks.countP (fun t => hasStatus t st)

/-- The `status_breakdown` dict of TaskManager.generate_task_summary: counts
for exactly the three conventional statuses. -/
def status_breakdown (tasks : List Json) : List (String × Json) :=
  [("created", .num (countStatus tasks "created" : Int)),
   ("in_progress", .num (countStatus tasks "in_progress" : Int)),
   ("completed", .num (countStatus tasks "completed" : Int))]

/-- Whether the f-string digest of one task can be formatted: the record is a
dict carrying `title`, `status` and `priority` (otherwise the `try` block
turns the KeyError/TypeError into the wrapped RuntimeError). -/
def taskFormatOk (t : Json) : Bool :=
  match t with
  | .obj f =>
      (getKey f "title").isSome && (getKey f "status").isSome &&
        (getKey f "priority").isSome
  | _ => false

/-- TaskManager.generate_task_summary: the "no tasks" sentinel on an empty
listing, otherwise the collaborator summary plus computed metadata; failures
inside the `try` block become a wrapped RuntimeError. -/
def generate_task_summary (s : Store) (collab : Except String String)
    (tGen : DateTime) : Except PyError Json :=
  match list_tasks s none with
  | .error e => .error e
  | .ok tasks =>
    if tasks.isEmpty then .ok (.obj [("summary", .str "No tasks found")])
    else if tasks.all taskFormatOk then
      match collab with
      | .error _ => .error (.runtimeError "Failed to generate task summary")
      | .ok text =>
          .ok (.obj [("summary", .str text),
                     ("task_count", .num (tasks.length : Int)),
                     ("status_breakdown", .obj (status_breakdown tasks)),
                     ("generated_at", .str (isoformat tGen))])
    else .error (.runtimeError "Failed to generate task summary")

/-- ProjectManager.get_project_status: the raw aggregate, plus the
`ai_insights` key when `detailed` is set (returned as dict fields). -/
def pm_get_project_status (s : Store) (detailed : Bool)
    (summaryCollab : Except String String) (tGen : DateTime) :
    Except PyError (List (String × Json)) := do
  let basic ← get_project_status s
  if detailed then do
    let summary ← generate_task_summary s summaryCollab tGen
    let latest ← get_latest_analysis s
    pure (setKey basic "ai_insights"
      (.obj [("task_summary", summary), ("latest_analysis", optJson latest)]))
  else pure basic

/-- The `status_summary` value of analyze_risks:
`project_status.get("tasks", \x7b\x7d).get("count", 0)`. -/
def statusSummaryOf (pstatus : List (String × Json)) : Except PyError Json :=
  match getKey pstatus "tasks" with
  | some (.obj tf) =>
      match getKey tf "count" with
      | some v => .ok v
      | none => .ok (.num 0)
  | some _ => .error .attributeError
  | none => .ok (.num 0)

/-- ProjectManager.analyze_risks: build the context (detailed status, tasks,
latest analysis), call the collaborator, persist the result as
`risk_analysis_<timestamp>` and return it (the returned dict carries the
`last_updated` stamp `save_data` added in place).  Any failure inside the
`try` block surfaces as the wrapping RuntimeError. -/
def analyze_risks (s : Store) (_includeSuggestions : Bool)
    (summaryCollab riskCollab : Except String String)
    (tGen tResult tName tSave : DateTime) : Store × Except PyError Json :=
  let inner : Except PyError (List (String × Json)) := do
    let pstatus ← pm_get_project_status s true summaryCollab tGen
    let tasks ← list_tasks s none
    let _latest ← get_latest_analysis s
    match riskCollab with
    | .error msg => .error (.runtimeError msg)
    | .ok text => do
        let statusSummary ← statusSummaryOf pstatus
        pure [("timestamp", .str (isoformat tResult)),
              ("analysis", .str text),
              ("data_snapshot", .obj [
                 ("task_count", .num (tasks.length : Int)),
                 ("status_summary", statusSummary)])]
  match inner with
  | .error _ => (s, .error (.runtimeError "Failed to analyze project risks"))
  | .ok result =>
    match save_data s "analyses" ("risk_analysis_" ++ strftimeCompact tName)
        result tSave with
    | .error _ => (s, .error (.runtimeError "Failed to analyze project risks"))
    | .ok s' =>
        (s', .ok (.obj (setKey result "last_updated" (.str (isoformat tSave)))))

/-- The naive `risk_count` input of generate_report:
`risks.get("analysis", "")`, whose `.split` requires a string. -/
def riskTextOf (risks : Json) : Except PyError String :=
  match risks with
  | .obj f =>
      match getKey f "analysis" with
      | some (.str t) => .ok t
      | some _ => .error .attributeError
      | none => .ok ""
  | _ => .error .attributeError

/-- ProjectManager.generate_report: gather detailed status, run the risk
analysis (which persists its own record), list tasks, request the narrative
report, then persist it under the `reports` category and return it.  Any
failure inside the `try` block surfaces as the wrapping RuntimeError, after
the side effects already performed. -/
def generate_report (s : Store) (reportFormat : String)
    (sumCollab1 sumCollab2 riskCollab reportCollab : Except String String)
    (tGen1 tGen2 tRiskResult tRiskName tRiskSave tReport tRepName tRepSave :
      DateTime) : Store × Except PyError Json :=
  match pm_get_project_status s true sumCollab1 tGen1 with
  | .error _ => (s, .error (.runtimeError "Failed to generate project report"))
  | .ok _pstatus =>
    match analyze_risks s true sumCollab2 riskCollab tGen2 tRiskResult
        tRiskName tRiskSave with
    | (s1, .error _) =>
        (s1, .error (.runtimeError "Failed to generate project report"))
    | (s1, .ok risks) =>
      match list_tasks s1 none with
      | .error _ =>
          (s1, .error (.runtimeError "Failed to generate project report"))
      | .ok tasks =>
        match reportCollab with
        | .error _ =>
            (s1, .error (.runtimeError "Failed to generate project report"))
        | .ok content =>
          match riskTextOf risks with
          | .error _ =>
              (s1, .error (.runtimeError "Failed to generate project report"))
          | .ok riskText =>
            let report : List (String × Json) :=
              [("format", .str reportFormat), ("content", .str content),
               ("generated_at", .str (isoformat tReport)),
               ("metadata", .obj [
                  ("task_count", .num (tasks.length : Int)),
                  ("risk_count", .num ((riskText.splitOn "\n").length : Int))])]
            match save_data s1 "reports" ("report_" ++ strftimeCompact tRepName)
                report tRepSave with
            | .error _ =>
                (s1, .error (.runtimeError "Failed to generate project report"))
            | .ok s2 =>
                (s2, .ok (.obj (setKey report "last_updated"
                  (.str (isoformat tRepSave)))))

/-- ProjectManager.process_commit_analysis: act only on a `"success"` status;
persist the analysis, overwrite the `latest` metrics record, and create a
high-priority review task when more than 5 files changed. -/
def process_commit_analysis (s : Store) (analysis : List (String × Json))
    (tAnName tAnSave tMetrics tMetSave : DateTime)
    (taskCollab : Except String String)
    (tTaskId tTaskAnalysis tTaskCreated tTaskUpdated tTaskSave : DateTime) :
    Store × Except PyError Unit :=
  let isSuccess :=
    match getKey analysis "status" with
    | some (.str st) => decide (st = "success")
    | _ => false
  if isSuccess then
    match save_analysis s analysis tAnName tAnSave with
    | .error e => (s, .error e)
    | .ok s1 =>
      match getKey analysis "timestamp" with
      | none => (s1, .error .keyError)
      | some ts =>
        match getKey analysis "files_changed" with
        | none => (s1, .error .keyError)
        | some fc =>
          match pyLen fc with
          | none => (s1, .error .typeError)
          | some n =>
            match getKey analysis "analysis" with
            | none => (s1, .error .keyError)
            | some anText =>
              let metrics : List (String × Json) :=
                [("last_commit", .obj [("timestamp", ts),
                   ("files_changed", .num (n : Int)), ("analysis", anText)]),
                 ("generated_at", .str (isoformat tMetrics))]
              match save_metrics s1 "latest" metrics tMetSave with
              | .error e => (s1, .error e)
              | .ok s2 =>
                if n > 5 then
                  match create_task s2 "Review Major Code Changes"
                      ("Significant changes detected in commit:\n" ++ pyStr anText)
                      "high" tTaskId taskCollab tTaskAnalysis tTaskCreated
                      tTaskUpdated tTaskSave with
                  | (s3, .error e) => (s3, .error e)
                  | (s3, .ok _) => (s3, .ok ())
                else (s2, .ok ())
  else (s, .ok ())

/-! ### Association-list lemmas -/

theorem getKey_setKey_self (l : List (String × Json)) (k : String) (v : Json) :
    getKey (setKey l k v) k = some v := by
  induction l with
  | nil => simp [setKey, getKey]
  | cons p rest ih =>
      obtain ⟨k', v'⟩ := p
      by_cases h : k' = k
      · subst h; simp [setKey, getKey]
      · simp [setKey, getKey, h, ih]

theorem getKey_setKey_ne (l : List (String × Json)) (k k' : String) (v : Json)
    (h : k' ≠ k) : getKey (setKey l k v) k' = getKey l k' := by
  induction l with
  | nil => simp [setKey, getKey, Ne.symm h]
  | cons p rest ih =>
      obtain ⟨k'', v''⟩ := p
      by_cases hk : k'' = k
      · subst hk
        simp [setKey, getKey, Ne.symm h]
      · by_cases hk' : k'' = k'
        · subst hk'; simp [setKey, getKey, hk]
        · simp [setKey, getKey, hk, hk', ih]

theorem lookupFile_setFile_self
    (fs : List ((String × String) × FileData)) (c n : String) (f : FileData) :
    lookupFile (setFile fs c n f) c n = some f := by
  induction fs with
  | nil => simp [setFile, lookupFile]
  | cons e rest ih =>
      obtain ⟨⟨c', n'⟩, g⟩ := e
      by_cases h : c' = c ∧ n' = n
      · obtain ⟨rfl, rfl⟩ := h
        simp [setFile, lookupFile]
      · simp [setFile, lookupFile, h, ih]

theorem lookupFile_setFile_ne
    (fs : List ((String × String) × FileData)) (c n c' n' : String)
    (f : FileData) (h : ¬(c = c' ∧ n = n')) :
    lookupFile (setFile fs c' n' f) c n = lookupFile fs c n := by
  induction fs with
  | nil =>
      have h' : ¬(c' = c ∧ n' = n) := fun ⟨h1, h2⟩ => h ⟨h1.symm, h2.symm⟩
      simp [setFile, lookupFile, h']
  | cons e rest ih =>
      obtain ⟨⟨c'', n''⟩, g⟩ := e
      by_cases hk : c'' = c' ∧ n'' = n'
      · obtain ⟨rfl, rfl⟩ := hk
        have h' : ¬(c'' = c ∧ n'' = n) := fun ⟨h1, h2⟩ => h ⟨h1.symm, h2.symm⟩
        simp [setFile, lookupFile, h']
      · by_cases hcn : c'' = c ∧ n'' = n
        · obtain ⟨rfl, rfl⟩ := hcn
          simp [setFile, lookupFile, hk]
        · simp [setFile, lookupFile, hk, hcn, ih]

theorem catNames_cons (c n : String) (f : FileData)
    (rest : List ((String × String) × FileData)) (cat : String) :
    catNames (((c, n), f) :: rest) cat =
      if c = cat then n :: catNames rest cat else catNames rest cat := by
  by_cases h : c = cat <;> simp [catNames, h]

theorem catNames_setFile_replace
    (fs : List ((String × String) × FileData)) (c n : String) (f : FileData)
    (h : lookupFile fs c n ≠ none) (cat : String) :
    catNames (setFile fs c n f) cat = catNames fs cat := by
  induction fs with
  | nil => simp [lookupFile] at h
  | cons e rest ih =>
      obtain ⟨⟨c', n'⟩, g⟩ := e
      by_cases hk : c' = c ∧ n' = n
      · obtain ⟨rfl, rfl⟩ := hk
        simp [setFile, catNames_cons]
      · simp only [lookupFile, if_neg hk] at h
        simp [setFile, hk, catNames_cons, ih h]

theorem catNames_setFile_new
    (fs : List ((String × String) × FileData)) (c n : String) (f : FileData)
    (h : lookupFile fs c n = none) (cat : String) :
    catNames (setFile fs c n f) cat =
      catNames fs cat ++ (if c = cat then [n] else []) := by
  induction fs with
  | nil => by_cases hc : c = cat <;> simp [setFile, catNames, hc]
  | cons e rest ih =>
      obtain ⟨⟨c', n'⟩, g⟩ := e
      by_cases hk : c' = c ∧ n' = n
      · obtain ⟨rfl, rfl⟩ := hk
        simp [lookupFile] at h
      · simp only [lookupFile, if_neg hk] at h
        by_cases hc : c' = cat
        · subst hc
          simp [setFile, hk, catNames_cons, ih h]
        · simp [setFile, hk, catNames_cons, hc, ih h]

theorem lookupFile_none_iff
    (fs : List ((String × String) × FileData)) (c n : String) :
    lookupFile fs c n = none ↔ n ∉ catNames fs c := by
  induction fs with
  | nil => simp [lookupFile, catNames]
  | cons e rest ih =>
      obtain ⟨⟨c', n'⟩, g⟩ := e
      by_cases hk : c' = c ∧ n' = n
      · obtain ⟨rfl, rfl⟩ := hk
        simp [lookupFile, catNames_cons]
      · by_cases hc : c' = c
        · subst hc
          have hn : n' ≠ n := fun hh => hk ⟨rfl, hh⟩
          simp [lookupFile, hk, catNames_cons, ih, hn, Ne.symm hn]
        · simp [lookupFile, hk, catNames_cons, hc, ih]

/-! ### Store-operation lemmas -/

theorem save_data_ok_iff {s : Store} {c n : String}
    {d : List (String × Json)} {t : DateTime} {s' : Store} :
    save_data s c n d t = .ok s' ↔
      c ∈ s.dirs ∧ s' = savedStore s c n d t := by
  unfold save_data
  by_cases h : c ∈ s.dirs
  · simp [h, eq_comm]
  · simp [h]

theorem dirs_save_data {s : Store} {c n : String} {d : List (String × Json)}
    {t : DateTime} {s' : Store} (h : save_data s c n d t = .ok s') :
    s'.dirs = s.dirs := by
  obtain ⟨-, rfl⟩ := save_data_ok_iff.mp h
  rfl

theorem load_data_save_data_self {s : Store} {c n : String}
    {d : List (String × Json)} {t : DateTime} {s' : Store}
    (h : save_data s c n d t = .ok s') :
    load_data s' c n =
      .ok (some (.obj (setKey d "last_updated" (.str (isoformat t))))) := by
  obtain ⟨-, rfl⟩ := save_data_ok_iff.mp h
  simp [load_data, savedStore, lookupFile_setFile_self]

theorem load_data_save_data_ne {s : Store} {c n : String}
    {d : List (String × Json)} {t : DateTime} {s' : Store} {c' n' : String}
    (h : save_data s c n d t = .ok s') (hne : ¬(c' = c ∧ n' = n)) :
    load_data s' c' n' = load_data s c' n' := by
  obtain ⟨-, rfl⟩ := save_data_ok_iff.mp h
  simp [load_data, savedStore, lookupFile_setFile_ne _ _ _ _ _ _ hne]

theorem list_files_save_data {s : Store} {c n : String}
    {d : List (String × Json)} {t : DateTime} {s' : Store}
    (h : save_data s c n d t = .ok s') (cat : String) :
    list_files s' cat =
      list_files s cat ++
        (if c = cat ∧ n ∉ catNames s.files c then [n] else []) := by
  obtain ⟨hdir, rfl⟩ := save_data_ok_iff.mp h
  by_cases hmem : n ∈ catNames s.files c
  · have hl : lookupFile s.files c n ≠ none := by
      intro h0
      exact (lookupFile_none_iff _ _ _).mp h0 hmem
    have hcond : ¬(c = cat ∧ n ∉ catNames s.files c) := fun hc => hc.2 hmem
    by_cases hcat : cat ∈ s.dirs <;>
      simp [list_files, savedStore, hcat,
        catNames_setFile_replace _ _ _ _ hl, hcond]
  · have hl : lookupFile s.files c n = none := (lookupFile_none_iff _ _ _).mpr hmem
    by_cases hcat : cat ∈ s.dirs
    · by_cases hc : c = cat
      · subst hc
        simp [list_files, savedStore, hcat,
          catNames_setFile_new _ _ _ _ hl, hmem]
      · simp [list_files, savedStore, hcat,
          catNames_setFile_new _ _ _ _ hl, hc]
    · have hcond : ¬(c = cat ∧ n ∉ catNames s.files c) := by
        rintro ⟨rfl, -⟩; exact hcat hdir
      simp [list_files, savedStore, hcat, hcond]

/-! ### Digit and timestamp-format lemmas -/

theorem digitVal_digitChar : ∀ d, d < 10 → digitVal (digitChar d) = some d := by
  decide

theorem digitChar_lt_iff :
    ∀ a, a < 10 → ∀ b, b < 10 → (digitChar a < digitChar b ↔ a < b) := by
  decide

theorem digitChar_inj_iff :
    ∀ a, a < 10 → ∀ b, b < 10 → (digitChar a = digitChar b ↔ a = b) := by
  decide

theorem read2_pad2 (n : Nat) (h : n < 100) (r : List Char) :
    read2 (pad2 n ++ r) = some (n, r) := by
  have h1 : n / 10 % 10 < 10 := Nat.mod_lt _ (by norm_num)
  have h0 : n % 10 < 10 := Nat.mod_lt _ (by norm_num)
  have e : n / 10 % 10 * 10 + n % 10 = n := by omega
  simp [pad2, read2, digitVal_digitChar _ h1, digitVal_digitChar _ h0, e]

theorem read4_pad4 (n : Nat) (h : n < 10000) (r : List Char) :
    read4 (pad4 n ++ r) = some (n, r) := by
  have h3 : n / 1000 % 10 < 10 := Nat.mod_lt _ (by norm_num)
  have h2 : n / 100 % 10 < 10 := Nat.mod_lt _ (by norm_num)
  have h1 : n / 10 % 10 < 10 := Nat.mod_lt _ (by norm_num)
  have h0 : n % 10 < 10 := Nat.mod_lt _ (by norm_num)
  have e : ((n / 1000 % 10 * 10 + n / 100 % 10) * 10 + n / 10 % 10) * 10 +
      n % 10 = n := by omega
  simp [pad4, read4, digitVal_digitChar _ h3, digitVal_digitChar _ h2,
    digitVal_digitChar _ h1, digitVal_digitChar _ h0, e]

theorem read6_pad6 (n : Nat) (h : n < 1000000) (r : List Char) :
    read6 (pad6 n ++ r) = some (n, r) := by
  have h5 : n / 100000 % 10 < 10 := Nat.mod_lt _ (by norm_num)
  have h4 : n / 10000 % 10 < 10 := Nat.mod_lt _ (by norm_num)
  have h3 : n / 1000 % 10 < 10 := Nat.mod_lt _ (by norm_num)
  have h2 : n / 100 % 10 < 10 := Nat.mod_lt _ (by norm_num)
  have h1 : n / 10 % 10 < 10 := Nat.mod_lt _ (by norm_num)
  have h0 : n % 10 < 10 := Nat.mod_lt _ (by norm_num)
  have e : ((((n / 100000 % 10 * 10 + n / 10000 % 10) * 10 + n / 1000 % 10) *
      10 + n / 100 % 10) * 10 + n / 10 % 10) * 10 + n % 10 = n := by omega
  simp [pad6, read6, digitVal_digitChar _ h5, digitVal_digitChar _ h4,
    digitVal_digitChar _ h3, digitVal_digitChar _ h2,
    digitVal_digitChar _ h1, digitVal_digitChar _ h0, e]

@[simp] theorem expectChar_cons_self (c : Char) (r : List Char) :
    expectChar c (c :: r) = some r := by
  simp [expectChar]

theorem parseIso_isoformat (t : DateTime) (h : t.Valid) :
    parseIso (isoformat t) = some t := by
  unfold DateTime.Valid at h
  obtain ⟨hy, hm1, hm2, hd1, hd2, hhh, hmi, hs, hus⟩ := h
  simp only [isoformat, isoChars, parseIso]
  by_cases h0 : t.microsecond = 0
  · have hsec := read2_pad2 t.second (by omega) []
    rw [List.append_nil] at hsec
    simp only [h0, if_pos rfl, List.append_nil]
    simp [read4_pad4 t.year (by omega), read2_pad2 t.month (by omega),
      read2_pad2 t.day (by omega), read2_pad2 t.hour (by omega),
      read2_pad2 t.minute (by omega), hsec]
    rw [← h0]
  · have hus6 := read6_pad6 t.microsecond (by omega) []
    rw [List.append_nil] at hus6
    simp [h0, read4_pad4 t.year (by omega), read2_pad2 t.month (by omega),
      read2_pad2 t.day (by omega), read2_pad2 t.hour (by omega),
      read2_pad2 t.minute (by omega), read2_pad2 t.second (by omega), hus6]

theorem parseCompact_strftimeCompact (t : DateTime) (h : t.Valid) :
    parseCompact (strftimeCompact t) =
      some ⟨t.year, t.month, t.day, t.hour, t.minute, t.second, 0⟩ := by
  unfold DateTime.Valid at h
  obtain ⟨hy, hm1, hm2, hd1, hd2, hhh, hmi, hs, hus⟩ := h
  have hsec := read2_pad2 t.second (by omega) []
  rw [List.append_nil] at hsec
  simp only [strftimeCompact, tsChars, parseCompact]
  simp [read4_pad4 t.year (by omega), read2_pad2 t.month (by omega),
    read2_pad2 t.day (by omega), read2_pad2 t.hour (by omega),
    read2_pad2 t.minute (by omega), hsec]

theorem isoformat_inj {a b : DateTime} (ha : a.Valid) (hb : b.Valid)
    (h : isoformat a = isoformat b) : a = b := by
  have := parseIso_isoformat a ha
  rw [h, parseIso_isoformat b hb] at this
  exact (Option.some_inj.mp this).symm

theorem strftimeCompact_inj {a b : DateTime} (ha : a.Valid) (hb : b.Valid)
    (h : strftimeCompact a = strftimeCompact b) :
    a.year = b.year ∧ a.month = b.month ∧ a.day = b.day ∧
      a.hour = b.hour ∧ a.minute = b.minute ∧ a.second = b.second := by
  have hp := parseCompact_strftimeCompact a ha
  rw [h, parseCompact_strftimeCompact b hb] at hp
  have h2 := Option.some_inj.mp hp
  simp only [DateTime.mk.injEq] at h2
  obtain ⟨e1, e2, e3, e4, e5, e6, -⟩ := h2
  exact ⟨e1.symm, e2.symm, e3.symm, e4.symm, e5.symm, e6.symm⟩

/-! ### Lexicographic order of timestamp-suffixed names -/

theorem char_cons_lt_cons_iff (a b : Char) (l m : List Char) :
    (a :: l) < (b :: m) ↔ a < b ∨ (a = b ∧ l < m) := by
  constructor
  · intro h
    cases h with
    | rel hab => exact .inl hab
    | cons h3 => exact .inr ⟨rfl, h3⟩
  · rintro (h | ⟨rfl, h⟩)
    · exact .rel h
    · exact .cons h

theorem not_nil_lt_nil : ¬ ([] : List Char) < [] := by
  intro h; cases h

theorem append_lt_append_left (p x y : List Char) :
    (p ++ x) < (p ++ y) ↔ x < y := by
  induction p with
  | nil => simp
  | cons c rest ih => simp [char_cons_lt_cons_iff, ih]

theorem pad2_append_lt_iff (a b : Nat) (ha : a < 100) (hb : b < 100)
    (r1 r2 : List Char) :
    (pad2 a ++ r1) < (pad2 b ++ r2) ↔ a < b ∨ (a = b ∧ r1 < r2) := by
  have h1a : a / 10 % 10 < 10 := Nat.mod_lt _ (by norm_num)
  have h1b : b / 10 % 10 < 10 := Nat.mod_lt _ (by norm_num)
  have h0a : a % 10 < 10 := Nat.mod_lt _ (by norm_num)
  have h0b : b % 10 < 10 := Nat.mod_lt _ (by norm_num)
  simp only [pad2, List.cons_append, List.nil_append, char_cons_lt_cons_iff]
  rw [digitChar_lt_iff _ h1a _ h1b, digitChar_inj_iff _ h1a _ h1b,
    digitChar_lt_iff _ h0a _ h0b, digitChar_inj_iff _ h0a _ h0b]
  constructor
  · rintro (h | ⟨h1, (h | ⟨h2, hr⟩)⟩)
    · left; omega
    · left; omega
    · right; exact ⟨by omega, hr⟩
  · rintro (h | ⟨rfl, hr⟩)
    · by_cases h1 : a / 10 % 10 < b / 10 % 10
      · exact .inl h1
      · right
        refine ⟨by omega, .inl (by omega)⟩
    · exact .inr ⟨rfl, .inr ⟨rfl, hr⟩⟩

theorem pad4_eq_pad2_pad2 (a : Nat) :
    pad4 a = pad2 (a / 100) ++ pad2 (a % 100) := by
  have e1 : a / 100 / 10 % 10 = a / 1000 % 10 := by omega
  have e2 : a % 100 / 10 % 10 = a / 10 % 10 := by omega
  have e3 : a % 100 % 10 = a % 10 := by omega
  simp only [pad4, pad2, List.cons_append, List.nil_append, e1, e2, e3]

theorem pad4_append_lt_iff (a b : Nat) (ha : a < 10000) (hb : b < 10000)
    (r1 r2 : List Char) :
    (pad4 a ++ r1) < (pad4 b ++ r2) ↔ a < b ∨ (a = b ∧ r1 < r2) := by
  rw [pad4_eq_pad2_pad2, pad4_eq_pad2_pad2, List.append_assoc, List.append_assoc,
    pad2_append_lt_iff (a / 100) (b / 100) (by omega) (by omega),
    pad2_append_lt_iff (a % 100) (b % 100) (by omega) (by omega)]
  constructor
  · rintro (h | ⟨h1, (h | ⟨h2, hr⟩)⟩)
    · left; omega
    · left; omega
    · right; exact ⟨by omega, hr⟩
  · rintro (h | ⟨rfl, hr⟩)
    · by_cases h1 : a / 100 < b / 100
      · exact .inl h1
      · right
        refine ⟨by omega, .inl (by omega)⟩
    · exact .inr ⟨rfl, .inr ⟨rfl, hr⟩⟩

theorem pad2_lt_iff (a b : Nat) (ha : a < 100) (hb : b < 100) :
    pad2 a < pad2 b ↔ a < b := by
  have h := pad2_append_lt_iff a b ha hb [] []
  simp only [List.append_nil] at h
  rw [h]
  simp [not_nil_lt_nil]

theorem tsChars_lt_iff (a b : DateTime) (ha : a.Valid) (hb : b.Valid) :
    tsChars a < tsChars b ↔ a.secLt b := by
  have ha' := ha; have hb' := hb
  unfold DateTime.Valid at ha' hb'
  obtain ⟨hy, hm1, hm2, hd1, hd2, hhh, hmi, hs, hus⟩ := ha'
  obtain ⟨hy', hm1', hm2', hd1', hd2', hhh', hmi', hs', hus'⟩ := hb'
  unfold tsChars DateTime.secLt
  simp only [List.append_assoc]
  rw [pad4_append_lt_iff a.year b.year (by omega) (by omega),
    pad2_append_lt_iff a.month b.month (by omega) (by omega),
    pad2_append_lt_iff a.day b.day (by omega) (by omega),
    char_cons_lt_cons_iff,
    pad2_append_lt_iff a.hour b.hour (by omega) (by omega),
    pad2_append_lt_iff a.minute b.minute (by omega) (by omega),
    pad2_lt_iff a.second b.second (by omega) (by omega)]
  simp [lt_irrefl]

theorem name_lt_iff (pre : String) (a b : DateTime)
    (ha : a.Valid) (hb : b.Valid) :
    pre ++ strftimeCompact a < pre ++ strftimeCompact b ↔ a.secLt b := by
  rw [String.lt_iff_toList_lt]
  show (pre ++ strftimeCompact a).data < (pre ++ strftimeCompact b).data ↔ _
  rw [String.data_append, String.data_append]
  show pre.data ++ tsChars a < pre.data ++ tsChars b ↔ _
  rw [append_lt_append_left]
  exact tsChars_lt_iff a b ha hb

/-! ### Descending sort lemmas -/

theorem listCharLt_iff : ∀ (as bs : List Char),
    listCharLt as bs = true ↔ as < bs
  | [], [] => by
      simp only [listCharLt]
      constructor
      · intro h; cases h
      · intro h; exact absurd h not_nil_lt_nil
  | [], b :: bs => by
      simp only [listCharLt]
      exact ⟨fun _ => .nil, fun _ => trivial⟩
  | a :: as, [] => by
      simp only [listCharLt]
      constructor
      · intro h; cases h
      · intro h; cases h
  | a :: as, b :: bs => by
      simp only [listCharLt]
      rw [char_cons_lt_cons_iff]
      by_cases h1 : a < b
      · simp [h1]
      · by_cases h2 : b < a
        · simp only [if_neg h1, if_pos h2]
          constructor
          · intro h; cases h
          · rintro (h | ⟨rfl, -⟩)
            · exact absurd h h1
            · exact absurd h2 h1
        · have heq : a = b := le_antisymm (not_lt.mp h2) (not_lt.mp h1)
          subst heq
          simp [if_neg h1, if_neg h2, listCharLt_iff as bs, h1]

theorem strLt_iff (s t : String) : strLt s t = true ↔ s < t := by
  rw [String.lt_iff_toList_lt]
  exact listCharLt_iff s.data t.data

theorem strLt_false_iff (s t : String) : strLt s t = false ↔ ¬ s < t := by
  rw [← strLt_iff]
  cases strLt s t <;> simp

theorem mem_insertDesc (x y : String) (l : List String) :
    y ∈ insertDesc x l ↔ y = x ∨ y ∈ l := by
  induction l with
  | nil => simp [insertDesc]
  | cons z rest ih =>
      by_cases h : x < z
      · rw [insertDesc, if_pos ((strLt_iff x z).mpr h)]
        simp only [List.mem_cons, ih]
        tauto
      · rw [insertDesc, if_neg (by rw [(strLt_false_iff x z).mpr h]; simp)]
        simp only [List.mem_cons]

theorem insertDesc_ne_nil (x : String) (l : List String) :
    insertDesc x l ≠ [] := by
  cases l with
  | nil => simp [insertDesc]
  | cons z rest =>
      unfold insertDesc
      by_cases h : strLt x z = true <;> simp [h]

theorem pairwise_insertDesc (x : String) (l : List String)
    (h : l.Pairwise (fun a b => b ≤ a)) :
    (insertDesc x l).Pairwise (fun a b => b ≤ a) := by
  induction l with
  | nil => simp [insertDesc]
  | cons z rest ih =>
      obtain ⟨hz, hrest⟩ := List.pairwise_cons.mp h
      by_cases hlt : x < z
      · rw [insertDesc, if_pos ((strLt_iff x z).mpr hlt), List.pairwise_cons]
        refine ⟨fun y hy => ?_, ih hrest⟩
        rcases (mem_insertDesc x y rest).mp hy with rfl | hmem
        · exact le_of_lt hlt
        · exact hz y hmem
      · rw [insertDesc, if_neg (by rw [(strLt_false_iff x z).mpr hlt]; simp),
          List.pairwise_cons]
        refine ⟨fun y hy => ?_, h⟩
        rcases List.mem_cons.mp hy with rfl | hmem
        · exact not_lt.mp hlt
        · exact le_trans (hz y hmem) (not_lt.mp hlt)

theorem pairwise_sortedDesc (l : List String) :
    (sortedDesc l).Pairwise (fun a b => b ≤ a) := by
  induction l with
  | nil => simp [sortedDesc]
  | cons x rest ih => exact pairwise_insertDesc x _ ih

theorem mem_sortedDesc (l : List String) (y : String) :
    y ∈ sortedDesc l ↔ y ∈ l := by
  induction l with
  | nil => simp [sortedDesc]
  | cons x rest ih =>
      show y ∈ insertDesc x (sortedDesc rest) ↔ _
      rw [mem_insertDesc, ih]
      simp

theorem sortedDesc_eq_nil_iff (l : List String) :
    sortedDesc l = [] ↔ l = [] := by
  cases l with
  | nil => simp [sortedDesc]
  | cons x rest =>
      simp only [sortedDesc, List.foldr_cons]
      exact ⟨fun h => absurd h (insertDesc_ne_nil x _), fun h => by cases h⟩

theorem sortedDesc_head_max (l : List String) (m : String) (rest : List String)
    (h : sortedDesc l = m :: rest) : m ∈ l ∧ ∀ x ∈ l, x ≤ m := by
  have hp := pairwise_sortedDesc l
  rw [h, List.pairwise_cons] at hp
  obtain ⟨hm, -⟩ := hp
  refine ⟨?_, fun x hx => ?_⟩
  · rw [← mem_sortedDesc, h]
    simp
  · have hx' : x ∈ m :: rest := by
      rw [← h, mem_sortedDesc]
      exact hx
    rcases List.mem_cons.mp hx' with rfl | hxr
    · exact le_refl x
    · exact hm x hxr

/-- Whether a string matches the `task_<YYYYMMDD_HHMMSS>` id pattern. -/
def isTaskId (s : String) : Bool :=
  match s.data with
  | 't' :: 'a' :: 's' :: 'k' :: '_' :: rest => (parseCompact ⟨rest⟩).isSome
  | _ => false

theorem isTaskId_of_strftime (t : DateTime) (h : t.Valid) :
    isTaskId ("task_" ++ strftimeCompact t) = true := by
  have hp := parseCompact_strftimeCompact t h
  unfold isTaskId
  rw [String.data_append]
  show (match ('t' :: 'a' :: 's' :: 'k' :: '_' :: tsChars t :
      List Char) with
    | 't' :: 'a' :: 's' :: 'k' :: '_' :: rest => (parseCompact ⟨rest⟩).isSome
    | _ => false) = true
  simp only []
  rw [show (⟨tsChars t⟩ : String) = strftimeCompact t from rfl, hp]
  rfl

/-! ### Concrete fixtures used by witnesses and counterexamples -/

/-- A concrete valid clock reading. -/
def wDT : DateTime := ⟨2024, 5, 17, 12, 30, 45, 123456⟩

/-- A concrete valid clock reading one second before `wDT`. -/
def wDT0 : DateTime := ⟨2024, 5, 17, 12, 30, 44, 0⟩

/-- A store holding one file that is not valid JSON. -/
def wStoreBad : Store :=
  ⟨["tasks", "progress", "metrics", "analyses"],
   [(("tasks", "bad"), .invalidJson)]⟩

/-! ### C1 -/

/-- C1: for every category, name and record data, a successful save_data
followed by load_data on the same (category, name) returns a mapping equal to
the saved data on every field except last_updated, which is present and
parses as a valid UTC timestamp no earlier than the start of the save call
(the clock reading `tSave` taken inside save_data is no earlier than the
call's start `t0`). -/
theorem c1_save_load_roundtrip (s : Store) (category name : String)
    (data : List (String × Json)) (t0 tSave : DateTime) (s' : Store)
    (hValid : tSave.Valid) (hStart : t0.chronoLe tSave)
    (hSave : save_data s category name data tSave = .ok s') :
    ∃ loaded, load_data s' category name = .ok (some (.obj loaded)) ∧
      (∀ k, k ≠ "last_updated" → getKey loaded k = getKey data k) ∧
      ∃ t, getKey loaded "last_updated" = some (.str (isoformat t)) ∧
        parseIso (isoformat t) = some t ∧ t0.chronoLe t :=
  ⟨setKey data "last_updated" (.str (isoformat tSave)),
    load_data_save_data_self hSave,
    fun _ hk => getKey_setKey_ne _ _ _ _ hk,
    tSave, getKey_setKey_self _ _ _, parseIso_isoformat tSave hValid, hStart⟩

/-- C1 witness: the round-trip theorem applied to a concrete store, record
and clock reading. -/
theorem c1_witness :
    ∃ loaded,
      load_data (savedStore initStore "tasks" "t1" [("a", .str "x")] wDT)
        "tasks" "t1" = .ok (some (.obj loaded)) ∧
      (∀ k, k ≠ "last_updated" → getKey loaded k = getKey [("a", Json.str "x")] k) ∧
      ∃ t, getKey loaded "last_updated" = some (.str (isoformat t)) ∧
        parseIso (isoformat t) = some t ∧ wDT0.chronoLe t :=
  c1_save_load_roundtrip initStore "tasks" "t1" [("a", .str "x")] wDT0 wDT _
    (by decide) (by decide) rfl

/-! ### C2 -/

/-- The chronologically newer of the two analyses in the C2 store. -/
def dtNew : DateTime := ⟨2025, 1, 1, 0, 0, 0, 0⟩

/-- The chronologically older of the two analyses in the C2 store. -/
def dtOld : DateTime := ⟨2020, 1, 1, 0, 0, 0, 0⟩

/-- Content of the (newer) commit analysis in the C2 store. -/
def jsonNewer : Json := .obj [("analysis", .str "new commit analysis")]

/-- Content of the (older) risk analysis in the C2 store. -/
def jsonOlder : Json := .obj [("analysis", .str "old risk analysis")]

/-- A store whose analyses category holds a commit analysis saved in 2025 and
a risk analysis saved in 2020. -/
def c2Store : Store :=
  ⟨["tasks", "progress", "metrics", "analyses"],
   [(("analyses", "analysis_" ++ strftimeCompact dtNew), .validJson jsonNewer),
    (("analyses", "risk_analysis_" ++ strftimeCompact dtOld),
      .validJson jsonOlder)]⟩

/-- C2 counterexample: the store holds a commit analysis whose timestamp
(2025) is chronologically after the risk analysis's (2020), yet
get_latest_analysis returns the older risk analysis, because every
`risk_analysis_*` name lexicographically dominates every `analysis_*` name;
so the mixed-kind names do not sort in chronological order and the function
does not return the chronologically most recently saved record. -/
theorem c2_counterexample :
    get_latest_analysis c2Store = .ok (some jsonOlder) ∧
    dtOld.secLt dtNew ∧
    jsonOlder ≠ jsonNewer := by
  refine ⟨rfl, by decide, ?_⟩
  intro h
  simp [jsonOlder, jsonNewer] at h

/-- C2 amended: get_latest_analysis returns absent when no analyses exist;
otherwise it sorts all names descending and loads the first, i.e. the record
under the lexicographically greatest name.  That is the chronologically most
recently saved analysis among names sharing one kind of timestamp-suffixed
name (for any fixed name stem, lexicographic order of the names agrees with
chronological order of the timestamps), but not across the two kinds. -/
theorem c2_latest_analysis (s : Store) :
    (list_files s "analyses" = [] → get_latest_analysis s = .ok none) ∧
    (list_files s "analyses" ≠ [] →
      ∃ m, m ∈ list_files s "analyses" ∧
        (∀ x ∈ list_files s "analyses", x ≤ m) ∧
        get_latest_analysis s = load_data s "analyses" m) ∧
    (∀ (stem : String) (a b : DateTime), a.Valid → b.Valid →
      (stem ++ strftimeCompact a < stem ++ strftimeCompact b ↔ a.secLt b)) := by
  refine ⟨?_, ?_, fun stem a b ha hb => name_lt_iff stem a b ha hb⟩
  · intro h
    unfold get_latest_analysis
    rw [h]
    rfl
  · intro hne
    obtain ⟨m, rest, hsort⟩ :
        ∃ m rest, sortedDesc (list_files s "analyses") = m :: rest := by
      cases hs : sortedDesc (list_files s "analyses") with
      | nil => exact absurd ((sortedDesc_eq_nil_iff _).mp hs) hne
      | cons m rest => exact ⟨m, rest, rfl⟩
    obtain ⟨hmem, hmax⟩ := sortedDesc_head_max _ _ _ hsort
    refine ⟨m, hmem, hmax, ?_⟩
    unfold get_latest_analysis
    rw [hsort]

/-- C2 witness: the amended theorem applied to the concrete two-analysis
store: a lexicographic maximum exists, is returned, and the single-kind
order equivalence holds at two concrete timestamps. -/
theorem c2_witness :
    (∃ m, m ∈ list_files c2Store "analyses" ∧
      (∀ x ∈ list_files c2Store "analyses", x ≤ m) ∧
      get_latest_analysis c2Store = load_data c2Store "analyses" m) ∧
    ("analysis_" ++ strftimeCompact dtOld < "analysis_" ++ strftimeCompact dtNew
      ↔ dtOld.secLt dtNew) :=
  ⟨(c2_latest_analysis c2Store).2.1 (by decide),
   (c2_latest_analysis c2Store).2.2 "analysis_" dtOld dtNew (by decide) (by decide)⟩

/-! ### C9 -/

/-- C9: load_data on a nonexistent (category, name) returns absent and never
raises; an error is raised exactly when the file exists but does not contain
valid JSON, and that error is the JSON parse error. -/
theorem c9_load_data (s : Store) (category name : String) :
    (lookupFile s.files category name = none →
      load_data s category name = .ok none) ∧
    (∀ e, load_data s category name = .error e →
      e = .jsonDecodeError ∧
        lookupFile s.files category name = some .invalidJson) := by
  constructor
  · intro h
    simp [load_data, h]
  · intro e he
    unfold load_data at he
    cases hl : lookupFile s.files category name with
    | none => rw [hl] at he; cases he
    | some f =>
        cases f with
        | validJson j => rw [hl] at he; cases he
        | invalidJson =>
            rw [hl] at he
            cases he
            exact ⟨rfl, rfl⟩

/-- C9 witness: a missing file loads as absent, and the one invalid file in
the concrete store raises exactly the parse error. -/
theorem c9_witness :
    load_data wStoreBad "tasks" "nope" = .ok none ∧
    (PyError.jsonDecodeError = .jsonDecodeError ∧
      lookupFile wStoreBad.files "tasks" "bad" = some .invalidJson) :=
  ⟨(c9_load_data wStoreBad "tasks" "nope").1 rfl,
   (c9_load_data wStoreBad "tasks" "bad").2 .jsonDecodeError rfl⟩

/-! ### update_task_status characterization (shared by C3 and C10) -/

theorem chronoLt_irrefl (a : DateTime) : ¬ a.chronoLt a := by
  unfold DateTime.chronoLt DateTime.secLt
  omega

theorem update_task_status_spec (s : Store) (taskId status : String)
    (notes : Option String) (tUpd tProg tSave : DateTime)
    (fields : List (String × Json))
    (hload : load_data s "tasks" taskId = .ok (some (.obj fields)))
    (hne : fields ≠ []) (hdirs : "tasks" ∈ s.dirs)
    (hhist : ∀ n, notes = some n → n ≠ "" →
      getKey fields "progress_history" = none ∨
        ∃ old, getKey fields "progress_history" = some (.arr old)) :
    ∃ f3,
      update_task_status s taskId status notes tUpd tProg tSave =
        (savedStore s "tasks" taskId f3 tSave, .ok ()) ∧
      getKey f3 "status" = some (.str status) ∧
      getKey f3 "updated_at" = some (.str (isoformat tUpd)) ∧
      (∀ k, k ≠ "status" → k ≠ "updated_at" → k ≠ "progress_history" →
        getKey f3 k = getKey fields k) ∧
      ((notes = none ∨ notes = some "") →
        getKey f3 "progress_history" = getKey fields "progress_history") ∧
      (∀ n, notes = some n → n ≠ "" →
        ((getKey fields "progress_history" = none →
          getKey f3 "progress_history" =
            some (.arr [.obj [("timestamp", .str (isoformat tProg)),
              ("status", .str status), ("notes", .str n)]])) ∧
        (∀ old, getKey fields "progress_history" = some (.arr old) →
          getKey f3 "progress_history" =
            some (.arr (old ++ [.obj [("timestamp", .str (isoformat tProg)),
              ("status", .str status), ("notes", .str n)]]))))) := by
  have hload' : load_task s taskId = .ok (some (.obj fields)) := hload
  have htr : (Json.obj fields).truthy = true := by
    cases fields with
    | nil => exact absurd rfl hne
    | cons p l => rfl
  have hsave : ∀ f3, save_task s taskId f3 tSave =
      .ok (savedStore s "tasks" taskId f3 tSave) := by
    intro f3
    unfold save_task save_data
    rw [if_pos hdirs]
  have hst2 : getKey (setKey (setKey fields "status" (.str status))
      "updated_at" (.str (isoformat tUpd))) "status" = some (.str status) := by
    rw [getKey_setKey_ne _ _ _ _ (by decide), getKey_setKey_self]
  have hupd2 : getKey (setKey (setKey fields "status" (.str status))
      "updated_at" (.str (isoformat tUpd))) "updated_at" =
      some (.str (isoformat tUpd)) := by
    rw [getKey_setKey_self]
  have hframe2 : ∀ k, k ≠ "status" → k ≠ "updated_at" →
      getKey (setKey (setKey fields "status" (.str status))
        "updated_at" (.str (isoformat tUpd))) k = getKey fields k := by
    intro k h1 h2
    rw [getKey_setKey_ne _ _ _ _ h2, getKey_setKey_ne _ _ _ _ h1]
  have hph : getKey (setKey (setKey fields "status" (.str status))
      "updated_at" (.str (isoformat tUpd))) "progress_history" =
      getKey fields "progress_history" :=
    hframe2 _ (by decide) (by decide)
  rcases notes with _ | n
  · refine ⟨setKey (setKey fields "status" (.str status)) "updated_at"
      (.str (isoformat tUpd)), ?_, hst2, hupd2,
      fun k h1 h2 _ => hframe2 k h1 h2, fun _ => hph, ?_⟩
    · unfold update_task_status
      rw [hload']
      simp only [htr, Bool.not_true, Bool.false_eq_true, if_false]
      rw [hsave]
    · intro n hn
      cases hn
  · by_cases hn : n = ""
    · subst hn
      refine ⟨setKey (setKey fields "status" (.str status)) "updated_at"
        (.str (isoformat tUpd)), ?_, hst2, hupd2,
        fun k h1 h2 _ => hframe2 k h1 h2, fun _ => hph, ?_⟩
      · unfold update_task_status
        rw [hload']
        simp only [htr, Bool.not_true, Bool.false_eq_true, if_false]
        simp only [ne_eq, not_true_eq_false, if_false]
        rw [hsave]
      · intro n' hn' hne'
        cases hn'
        exact absurd rfl hne'

    · rcases hhist n rfl hn with hnone | ⟨old, hold⟩
      · refine ⟨setKey (setKey (setKey fields "status" (.str status))
          "updated_at" (.str (isoformat tUpd))) "progress_history"
          (.arr [.obj [("timestamp", .str (isoformat tProg)),
            ("status", .str status), ("notes", .str n)]]), ?_, ?_, ?_, ?_, ?_, ?_⟩
        · unfold update_task_status
          rw [hload']
          simp only [htr, Bool.not_true, Bool.false_eq_true, if_false]
          simp only [ne_eq, hn, not_false_eq_true, if_true]
          rw [hph, hnone, hsave]
        · rw [getKey_setKey_ne _ _ _ _ (by decide)]
          exact hst2
        · rw [getKey_setKey_ne _ _ _ _ (by decide)]
          exact hupd2
        · intro k h1 h2 h3
          rw [getKey_setKey_ne _ _ _ _ h3]
          exact hframe2 k h1 h2
        · rintro (h | h)
          · cases h
          · exact absurd (Option.some_inj.mp h) hn
        · intro n' hn' _
          cases hn'
          constructor
          · intro _
            rw [getKey_setKey_self]
          · intro old' hold'
            rw [hnone] at hold'
            cases hold'
      · refine ⟨setKey (setKey (setKey fields "status" (.str status))
          "updated_at" (.str (isoformat tUpd))) "progress_history"
          (.arr (old ++ [.obj [("timestamp", .str (isoformat tProg)),
            ("status", .str status), ("notes", .str n)]])), ?_, ?_, ?_, ?_, ?_, ?_⟩
        · unfold update_task_status
          rw [hload']
          simp only [htr, Bool.not_true, Bool.false_eq_true, if_false]
          simp only [ne_eq, hn, not_false_eq_true, if_true]
          rw [hph]
          simp only [hold]
          rw [hsave]
        · rw [getKey_setKey_ne _ _ _ _ (by decide)]
          exact hst2
        · rw [getKey_setKey_ne _ _ _ _ (by decide)]
          exact hupd2
        · intro k h1 h2 h3
          rw [getKey_setKey_ne _ _ _ _ h3]
          exact hframe2 k h1 h2
        · rintro (h | h)
          · cases h
          · exact absurd (Option.some_inj.mp h) hn
        · intro n' hn' _
          cases hn'
          constructor
          · intro hcontra
            rw [hold] at hcontra
            cases hcontra
          · intro old' hold'
            rw [hold] at hold'
            cases hold'
            rw [getKey_setKey_self]

/-! ### C3 -/

/-- A store holding one task record, used by the C3 and C10 claims. -/
def c3Store : Store :=
  ⟨["tasks", "progress", "metrics", "analyses"],
   [(("tasks", "t1"),
     .validJson (.obj [("id", .str "t1"), ("status", .str "created")]))]⟩

/-- C3 counterexample: progress notes are given (the empty string), the task
exists and the update succeeds, yet no entry is appended — progress_history
is still absent afterwards, because `if progress_notes:` treats the empty
string as not given. -/
theorem c3_counterexample :
    (update_task_status c3Store "t1" "in_progress" (some "") wDT wDT wDT).2 =
      .ok () ∧
    load_data (update_task_status c3Store "t1" "in_progress" (some "")
        wDT wDT wDT).1 "tasks" "t1" =
      .ok (some (.obj [("id", .str "t1"), ("status", .str "in_progress"),
        ("updated_at", .str (isoformat wDT)),
        ("last_updated", .str (isoformat wDT))])) ∧
    getKey [("id", Json.str "t1"), ("status", .str "in_progress"),
        ("updated_at", .str (isoformat wDT)),
        ("last_updated", .str (isoformat wDT))] "progress_history" = none :=
  ⟨rfl, rfl, rfl⟩

/-- C3 (amended): update_task_status on a task id with no stored task fails
with the not-found ValueError; on an existing task (a nonempty record whose
progress_history, if present, is a list) it sets status to the given value,
strictly advances updated_at whenever the update's clock reading is
chronologically after the one recorded in the task, and, whenever NON-EMPTY
progress_notes are given, appends exactly one entry to progress_history
whose status and notes fields equal the arguments (initializing
progress_history if absent), then saves the task. -/
theorem c3_update_task_status (s : Store) (taskId status : String)
    (notes : Option String) (tUpd tProg tSave : DateTime) :
    (load_data s "tasks" taskId = .ok none →
      update_task_status s taskId status notes tUpd tProg tSave =
        (s, .error (.valueError ("Task " ++ taskId ++ " not found")))) ∧
    (∀ fields, load_data s "tasks" taskId = .ok (some (.obj fields)) →
      fields ≠ [] → "tasks" ∈ s.dirs → tUpd.Valid →
      (∀ n, notes = some n → n ≠ "" →
        getKey fields "progress_history" = none ∨
          ∃ old, getKey fields "progress_history" = some (.arr old)) →
      ∃ s' fields',
        update_task_status s taskId status notes tUpd tProg tSave =
          (s', .ok ()) ∧
        load_data s' "tasks" taskId = .ok (some (.obj fields')) ∧
        getKey fields' "status" = some (.str status) ∧
        getKey fields' "updated_at" = some (.str (isoformat tUpd)) ∧
        (∀ tOld, tOld.Valid →
          getKey fields "updated_at" = some (.str (isoformat tOld)) →
          tOld.chronoLt tUpd →
          getKey fields' "updated_at" ≠ getKey fields "updated_at") ∧
        (∀ n, notes = some n → n ≠ "" →
          ((getKey fields "progress_history" = none →
            getKey fields' "progress_history" = some (.arr [.obj
              [("timestamp", .str (isoformat tProg)),
               ("status", .str status), ("notes", .str n)]])) ∧
          (∀ old, getKey fields "progress_history" = some (.arr old) →
            getKey fields' "progress_history" = some (.arr (old ++ [.obj
              [("timestamp", .str (isoformat tProg)),
               ("status", .str status), ("notes", .str n)]])))))) := by
  constructor
  · intro hload
    have hload' : load_task s taskId = .ok none := hload
    unfold update_task_status
    rw [hload']
  · intro fields hload hne hdirs hValid hhist
    obtain ⟨f3, hequ, hst, hupd, hframe, hphEq, hnotes⟩ :=
      update_task_status_spec s taskId status notes tUpd tProg tSave fields
        hload hne hdirs hhist
    have hsaveLoad : load_data (savedStore s "tasks" taskId f3 tSave)
        "tasks" taskId =
        .ok (some (.obj (setKey f3 "last_updated"
          (.str (isoformat tSave))))) := by
      apply load_data_save_data_self (s := s)
      unfold save_data
      rw [if_pos hdirs]
    refine ⟨savedStore s "tasks" taskId f3 tSave,
      setKey f3 "last_updated" (.str (isoformat tSave)), hequ, hsaveLoad,
      ?_, ?_, ?_, ?_⟩
    · rw [getKey_setKey_ne _ _ _ _ (by decide)]
      exact hst
    · rw [getKey_setKey_ne _ _ _ _ (by decide)]
      exact hupd
    · intro tOld hOldValid hOldKey hLt hEq
      rw [getKey_setKey_ne _ _ _ _ (by decide), hupd, hOldKey] at hEq
      have h1 := Option.some_inj.mp hEq
      have h2 : isoformat tUpd = isoformat tOld := by
        injection h1
      have h3 : tUpd = tOld := isoformat_inj hValid hOldValid h2
      rw [h3] at hLt
      exact chronoLt_irrefl _ hLt
    · intro n hn hne'
      obtain ⟨ha, hb⟩ := hnotes n hn hne'
      constructor
      · intro h0
        rw [getKey_setKey_ne _ _ _ _ (by decide)]
        exact ha h0
      · intro old hold
        rw [getKey_setKey_ne _ _ _ _ (by decide)]
        exact hb old hold

/-- C3 witness: the amended theorem applied to the concrete one-task store
with non-empty notes and a strictly later clock reading. -/
theorem c3_witness :
    ∃ s' fields',
      update_task_status c3Store "t1" "completed" (some "done it")
        wDT wDT wDT = (s', .ok ()) ∧
      load_data s' "tasks" "t1" = .ok (some (.obj fields')) ∧
      getKey fields' "status" = some (.str "completed") ∧
      getKey fields' "updated_at" = some (.str (isoformat wDT)) ∧
      (∀ tOld, tOld.Valid →
        getKey [("id", Json.str "t1"), ("status", Json.str "created")]
          "updated_at" = some (.str (isoformat tOld)) →
        tOld.chronoLt wDT →
        getKey fields' "updated_at" ≠
          getKey [("id", Json.str "t1"), ("status", Json.str "created")]
            "updated_at") ∧
      (∀ n, (some "done it" : Option String) = some n → n ≠ "" →
        ((getKey [("id", Json.str "t1"), ("status", Json.str "created")]
            "progress_history" = none →
          getKey fields' "progress_history" = some (.arr [.obj
            [("timestamp", .str (isoformat wDT)),
             ("status", .str "completed"), ("notes", .str n)]])) ∧
        (∀ old, getKey [("id", Json.str "t1"),
            ("status", Json.str "created")] "progress_history" =
              some (.arr old) →
          getKey fields' "progress_history" = some (.arr (old ++ [.obj
            [("timestamp", .str (isoformat wDT)),
             ("status", .str "completed"), ("notes", .str n)]]))))) :=
  (c3_update_task_status c3Store "t1" "completed" (some "done it")
      wDT wDT wDT).2
    [("id", Json.str "t1"), ("status", Json.str "created")] rfl
    (by simp) (by decide) (by decide)
    (fun n _ _ => Or.inl rfl)

/-! ### C10 -/

/-- C10: update_task_status leaves every field of the task record other than
status, updated_at, progress_history and the store-stamped last_updated
unchanged — in particular id, title, description, priority, created_at and
analysis are identical before and after the call. -/
theorem c10_update_task_status_frame (s : Store) (taskId status : String)
    (notes : Option String) (tUpd tProg tSave : DateTime)
    (fields : List (String × Json))
    (hload : load_data s "tasks" taskId = .ok (some (.obj fields)))
    (hne : fields ≠ []) (hdirs : "tasks" ∈ s.dirs)
    (hhist : ∀ n, notes = some n → n ≠ "" →
      getKey fields "progress_history" = none ∨
        ∃ old, getKey fields "progress_history" = some (.arr old)) :
    ∃ s' fields',
      update_task_status s taskId status notes tUpd tProg tSave =
        (s', .ok ()) ∧
      load_data s' "tasks" taskId = .ok (some (.obj fields')) ∧
      ∀ k, k ≠ "status" → k ≠ "updated_at" → k ≠ "progress_history" →
        k ≠ "last_updated" → getKey fields' k = getKey fields k := by
  obtain ⟨f3, hequ, -, -, hframe, -, -⟩ :=
    update_task_status_spec s taskId status notes tUpd tProg tSave fields
      hload hne hdirs hhist
  have hsaveLoad : load_data (savedStore s "tasks" taskId f3 tSave)
      "tasks" taskId =
      .ok (some (.obj (setKey f3 "last_updated"
        (.str (isoformat tSave))))) := by
    apply load_data_save_data_self (s := s)
    unfold save_data
    rw [if_pos hdirs]
  refine ⟨savedStore s "tasks" taskId f3 tSave,
    setKey f3 "last_updated" (.str (isoformat tSave)), hequ, hsaveLoad,
    fun k h1 h2 h3 h4 => ?_⟩
  rw [getKey_setKey_ne _ _ _ _ h4]
  exact hframe k h1 h2 h3

/-- C10 witness: the frame theorem applied to the concrete one-task store;
the id field (among all others) is untouched. -/
theorem c10_witness :
    ∃ s' fields',
      update_task_status c3Store "t1" "completed" none wDT wDT wDT =
        (s', .ok ()) ∧
      load_data s' "tasks" "t1" = .ok (some (.obj fields')) ∧
      ∀ k, k ≠ "status" → k ≠ "updated_at" → k ≠ "progress_history" →
        k ≠ "last_updated" →
        getKey fields' k =
          getKey [("id", Json.str "t1"), ("status", Json.str "created")] k :=
  c10_update_task_status_frame c3Store "t1" "completed" none wDT wDT wDT
    [("id", Json.str "t1"), ("status", Json.str "created")] rfl
    (by simp) (by decide) (fun n hn => by cases hn)

/-! ### create_task characterization (shared by C4, C5 and C8) -/

theorem create_task_collab_error (s : Store) (title desc prio : String)
    (tId : DateTime) (msg : String) (tA tC tU tS : DateTime) :
    create_task s title desc prio tId (.error msg) tA tC tU tS =
      (s, .error (.runtimeError
        ("Failed to analyze task with DeepSeek API: " ++ msg))) := rfl

theorem create_task_ok_eq (s : Store) (title desc prio text : String)
    (tId tA tC tU tS : DateTime) (hdirs : "tasks" ∈ s.dirs) :
    create_task s title desc prio tId (.ok text) tA tC tU tS =
      (savedStore s "tasks" ("task_" ++ strftimeCompact tId)
        [("id", .str ("task_" ++ strftimeCompact tId)), ("title", .str title),
         ("description", .str desc), ("priority", .str prio),
         ("status", .str "created"), ("created_at", .str (isoformat tC)),
         ("updated_at", .str (isoformat tU)),
         ("analysis", .obj [("analysis", .str text),
           ("timestamp", .str (isoformat tA))])] tS,
       .ok ("task_" ++ strftimeCompact tId)) := by
  simp only [create_task, save_task, save_data]
  rw [if_pos hdirs]

/-! ### C5 -/

/-- C5: if the external analysis collaborator call fails, create_task
propagates the wrapped external-service error to the caller and the store is
unchanged; on success it persists and returns an id such that get_task(id)
yields a record with status "created" whose id field is the returned id, and
the id matches the task_<timestamp> pattern. -/
theorem c5_create_task (s : Store) (title desc prio : String)
    (tId tA tC tU tS : DateTime) (hValid : tId.Valid)
    (hdirs : "tasks" ∈ s.dirs) :
    (∀ msg, create_task s title desc prio tId (.error msg) tA tC tU tS =
      (s, .error (.runtimeError
        ("Failed to analyze task with DeepSeek API: " ++ msg)))) ∧
    (∀ text, ∃ s' taskId,
      create_task s title desc prio tId (.ok text) tA tC tU tS =
        (s', .ok taskId) ∧
      isTaskId taskId = true ∧
      ∃ fields, get_task s' taskId = .ok (some (.obj fields)) ∧
        getKey fields "status" = some (.str "created") ∧
        getKey fields "id" = some (.str taskId)) := by
  refine ⟨fun msg => rfl, fun text => ?_⟩
  refine ⟨_, "task_" ++ strftimeCompact tId,
    create_task_ok_eq s title desc prio text tId tA tC tU tS hdirs,
    isTaskId_of_strftime tId hValid, ?_⟩
  refine ⟨setKey
    [("id", Json.str ("task_" ++ strftimeCompact tId)), ("title", .str title),
     ("description", .str desc), ("priority", .str prio),
     ("status", .str "created"), ("created_at", .str (isoformat tC)),
     ("updated_at", .str (isoformat tU)),
     ("analysis", .obj [("analysis", .str text),
       ("timestamp", .str (isoformat tA))])]
    "last_updated" (.str (isoformat tS)), ?_, rfl, rfl⟩
  apply load_data_save_data_self (s := s)
  unfold save_data
  rw [if_pos hdirs]

/-- C5 witness: the theorem applied at a fresh store and concrete inputs. -/
theorem c5_witness :
    (∀ msg, create_task initStore "Fix bug" "desc" "medium" wDT (.error msg)
        wDT wDT wDT wDT =
      (initStore, .error (.runtimeError
        ("Failed to analyze task with DeepSeek API: " ++ msg)))) ∧
    (∀ text, ∃ s' taskId,
      create_task initStore "Fix bug" "desc" "medium" wDT (.ok text)
          wDT wDT wDT wDT = (s', .ok taskId) ∧
      isTaskId taskId = true ∧
      ∃ fields, get_task s' taskId = .ok (some (.obj fields)) ∧
        getKey fields "status" = some (.str "created") ∧
        getKey fields "id" = some (.str taskId)) :=
  c5_create_task initStore "Fix bug" "desc" "medium" wDT wDT wDT wDT wDT
    (by decide) (by decide)

/-! ### C8 -/

/-- The store after a first create_task invocation at clock reading `wDT`. -/
def c8s1 : Store :=
  (create_task initStore "first" "d1" "medium" wDT (.ok "a1")
    wDT wDT wDT wDT).1

/-- The store after a second, distinct create_task invocation (different
title and description) whose clock reading falls in the same second. -/
def c8s2 : Store :=
  (create_task c8s1 "second" "d2" "medium" wDT (.ok "a2")
    wDT wDT wDT wDT).1

/-- C8 counterexample: two distinct create_task invocations within the same
clock second return the same id, and after both calls the store holds a
single task file — the second invocation silently overwrote the first, so
ids are not unique by construction. -/
theorem c8_counterexample :
    (create_task initStore "first" "d1" "medium" wDT (.ok "a1")
      wDT wDT wDT wDT).2 = .ok ("task_" ++ strftimeCompact wDT) ∧
    (create_task c8s1 "second" "d2" "medium" wDT (.ok "a2")
      wDT wDT wDT wDT).2 = .ok ("task_" ++ strftimeCompact wDT) ∧
    list_files c8s2 "tasks" = ["task_" ++ strftimeCompact wDT] :=
  ⟨rfl, rfl, rfl⟩

/-- C8 (amended): each successful create_task invocation returns the id
task_<strftime("%Y%m%d_%H%M%S") of its clock reading>, and the ids of two
invocations are distinct whenever their clock readings differ in any
second-resolution field; invocations within the same second collide, since
the id encodes the creation timestamp only to whole seconds. -/
theorem c8_task_ids (t1 t2 : DateTime) (h1 : t1.Valid) (h2 : t2.Valid)
    (hne : ¬(t1.year = t2.year ∧ t1.month = t2.month ∧ t1.day = t2.day ∧
      t1.hour = t2.hour ∧ t1.minute = t2.minute ∧ t1.second = t2.second)) :
    ("task_" ++ strftimeCompact t1) ≠ ("task_" ++ strftimeCompact t2) ∧
    (∀ (s : Store) (title desc prio text : String) (tA tC tU tS : DateTime),
      "tasks" ∈ s.dirs →
      (create_task s title desc prio t1 (.ok text) tA tC tU tS).2 =
        .ok ("task_" ++ strftimeCompact t1)) := by
  constructor
  · intro h
    have hd : ("task_" ++ strftimeCompact t1).data =
        ("task_" ++ strftimeCompact t2).data := by rw [h]
    rw [String.data_append, String.data_append] at hd
    have h4 : tsChars t1 = tsChars t2 := List.append_cancel_left hd
    have h5 : strftimeCompact t1 = strftimeCompact t2 :=
      congrArg String.mk h4
    exact hne (strftimeCompact_inj h1 h2 h5)
  · intro s title desc prio text tA tC tU tS hdirs
    rw [create_task_ok_eq s title desc prio text t1 tA tC tU tS hdirs]

/-- C8 witness: the amended theorem applied to two concrete clock readings
one second apart, at the fresh store. -/
theorem c8_witness :
    ("task_" ++ strftimeCompact wDT0) ≠ ("task_" ++ strftimeCompact wDT) ∧
    (∀ (s : Store) (title desc prio text : String) (tA tC tU tS : DateTime),
      "tasks" ∈ s.dirs →
      (create_task s title desc prio wDT0 (.ok text) tA tC tU tS).2 =
        .ok ("task_" ++ strftimeCompact wDT0)) :=
  c8_task_ids wDT0 wDT (by decide) (by decide) (by decide)

/-! ### C4 -/

/-- C4: process_commit_analysis persists nothing when the analysis status is
not "success"; on "success" it saves the analysis as a timestamp-named
record under analyses, overwrites the latest metrics record with the new
commit snapshot, and creates exactly one new high-priority task (with a
fresh timestamp id) if and only if more than 5 files changed: with
files_changed of length 6 the task listing grows by exactly the one new
high-priority task, with length 5 it is unchanged. -/
theorem c4_process_commit_analysis (s : Store)
    (analysis : List (String × Json))
    (tAnName tAnSave tMetrics tMetSave : DateTime) (text : String)
    (tTaskId tTA tTC tTU tTS : DateTime) :
    ((∀ j, getKey analysis "status" = some j → j ≠ .str "success") →
      process_commit_analysis s analysis tAnName tAnSave tMetrics tMetSave
        (.ok text) tTaskId tTA tTC tTU tTS = (s, .ok ())) ∧
    (getKey analysis "status" = some (.str "success") →
      ∀ tsv fcs anv, getKey analysis "timestamp" = some tsv →
        getKey analysis "files_changed" = some (.arr fcs) →
        getKey analysis "analysis" = some anv →
        "analyses" ∈ s.dirs → "metrics" ∈ s.dirs → "tasks" ∈ s.dirs →
        ("task_" ++ strftimeCompact tTaskId) ∉ list_files s "tasks" →
        ∃ s', process_commit_analysis s analysis tAnName tAnSave tMetrics
            tMetSave (.ok text) tTaskId tTA tTC tTU tTS = (s', .ok ()) ∧
          load_data s' "analyses" ("analysis_" ++ strftimeCompact tAnName) =
            .ok (some (.obj (setKey analysis "last_updated"
              (.str (isoformat tAnSave))))) ∧
          load_data s' "metrics" "latest" =
            .ok (some (.obj (setKey
              [("last_commit", .obj [("timestamp", tsv),
                 ("files_changed", .num (fcs.length : Int)),
                 ("analysis", anv)]),
               ("generated_at", .str (isoformat tMetrics))]
              "last_updated" (.str (isoformat tMetSave))))) ∧
          (5 < fcs.length →
            list_files s' "tasks" =
              list_files s "tasks" ++ ["task_" ++ strftimeCompact tTaskId] ∧
            ∃ fields,
              load_data s' "tasks" ("task_" ++ strftimeCompact tTaskId) =
                .ok (some (.obj fields)) ∧
              getKey fields "priority" = some (.str "high") ∧
              getKey fields "status" = some (.str "created")) ∧
          (fcs.length ≤ 5 → list_files s' "tasks" = list_files s "tasks")) := by
  constructor
  · intro hns
    have hcond : (match getKey analysis "status" with
        | some (.str st) => decide (st = "success")
        | _ => false) = false := by
      cases hg : getKey analysis "status" with
      | none => rfl
      | some j =>
          cases j with
          | str st => exact decide_eq_false (fun h => hns _ hg (by rw [h]))
          | null => rfl
          | bool b => rfl
          | num n => rfl
          | arr l => rfl
          | obj f => rfl
    simp only [process_commit_analysis, hcond]
    rfl
  · intro hst tsv fcs anv hts hfc han hdA hdM hdT hfresh
    have hsave1 : save_data s "analyses"
        ("analysis_" ++ strftimeCompact tAnName) analysis tAnSave =
        .ok (savedStore s "analyses" ("analysis_" ++ strftimeCompact tAnName)
          analysis tAnSave) := by
      unfold save_data
      rw [if_pos hdA]
    have hs1 : save_analysis s analysis tAnName tAnSave =
        .ok (savedStore s "analyses" ("analysis_" ++ strftimeCompact tAnName)
          analysis tAnSave) := hsave1
    have hd1 : (savedStore s "analyses"
        ("analysis_" ++ strftimeCompact tAnName) analysis tAnSave).dirs =
        s.dirs := rfl
    have ht1 : list_files (savedStore s "analyses"
        ("analysis_" ++ strftimeCompact tAnName) analysis tAnSave) "tasks" =
        list_files s "tasks" := by
      rw [list_files_save_data hsave1 "tasks"]
      simp
    have hsave2 : save_data (savedStore s "analyses"
        ("analysis_" ++ strftimeCompact tAnName) analysis tAnSave)
        "metrics" "latest"
        [("last_commit", .obj [("timestamp", tsv),
           ("files_changed", .num (fcs.length : Int)), ("analysis", anv)]),
         ("generated_at", .str (isoformat tMetrics))] tMetSave =
        .ok (savedStore (savedStore s "analyses"
          ("analysis_" ++ strftimeCompact tAnName) analysis tAnSave)
          "metrics" "latest"
          [("last_commit", .obj [("timestamp", tsv),
             ("files_changed", .num (fcs.length : Int)), ("analysis", anv)]),
           ("generated_at", .str (isoformat tMetrics))] tMetSave) := by
      have hdM2 : "metrics" ∈ (savedStore s "analyses"
          ("analysis_" ++ strftimeCompact tAnName) analysis tAnSave).dirs := hdM
      unfold save_data
      rw [if_pos hdM2]
    have hs2 : save_metrics (savedStore s "analyses"
        ("analysis_" ++ strftimeCompact tAnName) analysis tAnSave) "latest"
        [("last_commit", .obj [("timestamp", tsv),
           ("files_changed", .num (fcs.length : Int)), ("analysis", anv)]),
         ("generated_at", .str (isoformat tMetrics))] tMetSave =
        .ok (savedStore (savedStore s "analyses"
          ("analysis_" ++ strftimeCompact tAnName) analysis tAnSave)
          "metrics" "latest"
          [("last_commit", .obj [("timestamp", tsv),
             ("files_changed", .num (fcs.length : Int)), ("analysis", anv)]),
           ("generated_at", .str (isoformat tMetrics))] tMetSave) := hsave2
    have ht2 : list_files (savedStore (savedStore s "analyses"
        ("analysis_" ++ strftimeCompact tAnName) analysis tAnSave)
        "metrics" "latest"
        [("last_commit", .obj [("timestamp", tsv),
           ("files_changed", .num (fcs.length : Int)), ("analysis", anv)]),
         ("generated_at", .str (isoformat tMetrics))] tMetSave) "tasks" =
        list_files s "tasks" := by
      rw [list_files_save_data hsave2 "tasks"]
      simp [ht1]
    have hdT2 : "tasks" ∈ (savedStore (savedStore s "analyses"
        ("analysis_" ++ strftimeCompact tAnName) analysis tAnSave)
        "metrics" "latest"
        [("last_commit", .obj [("timestamp", tsv),
           ("files_changed", .num (fcs.length : Int)), ("analysis", anv)]),
         ("generated_at", .str (isoformat tMetrics))] tMetSave).dirs := hdT
    rcases Nat.lt_or_ge 5 fcs.length with h5 | h5
    · have hct := create_task_ok_eq (savedStore (savedStore s "analyses"
        ("analysis_" ++ strftimeCompact tAnName) analysis tAnSave)
        "metrics" "latest"
        [("last_commit", .obj [("timestamp", tsv),
           ("files_changed", .num (fcs.length : Int)), ("analysis", anv)]),
         ("generated_at", .str (isoformat tMetrics))] tMetSave)
        "Review Major Code Changes"
        ("Significant changes detected in commit:\n" ++ pyStr anv) "high"
        text tTaskId tTA tTC tTU tTS hdT2
      have heq : process_commit_analysis s analysis tAnName tAnSave tMetrics
          tMetSave (.ok text) tTaskId tTA tTC tTU tTS =
          (savedStore (savedStore (savedStore s "analyses"
            ("analysis_" ++ strftimeCompact tAnName) analysis tAnSave)
            "metrics" "latest"
            [("last_commit", .obj [("timestamp", tsv),
               ("files_changed", .num (fcs.length : Int)), ("analysis", anv)]),
             ("generated_at", .str (isoformat tMetrics))] tMetSave)
            "tasks" ("task_" ++ strftimeCompact tTaskId)
            [("id", .str ("task_" ++ strftimeCompact tTaskId)),
             ("title", .str "Review Major Code Changes"),
             ("description", .str ("Significant changes detected in commit:\n"
               ++ pyStr anv)),
             ("priority", .str "high"), ("status", .str "created"),
             ("created_at", .str (isoformat tTC)),
             ("updated_at", .str (isoformat tTU)),
             ("analysis", .obj [("analysis", .str text),
               ("timestamp", .str (isoformat tTA))])] tTS, .ok ()) := by
        simp only [process_commit_analysis, hst, hts, hfc, han, pyLen,
          save_analysis, hsave1, hs2, hct]
        simp [h5]
      have hsave3 : save_data (savedStore (savedStore s "analyses"
          ("analysis_" ++ strftimeCompact tAnName) analysis tAnSave)
          "metrics" "latest"
          [("last_commit", .obj [("timestamp", tsv),
             ("files_changed", .num (fcs.length : Int)), ("analysis", anv)]),
           ("generated_at", .str (isoformat tMetrics))] tMetSave)
          "tasks" ("task_" ++ strftimeCompact tTaskId)
          [("id", .str ("task_" ++ strftimeCompact tTaskId)),
           ("title", .str "Review Major Code Changes"),
           ("description", .str ("Significant changes detected in commit:\n"
             ++ pyStr anv)),
           ("priority", .str "high"), ("status", .str "created"),
           ("created_at", .str (isoformat tTC)),
           ("updated_at", .str (isoformat tTU)),
           ("analysis", .obj [("analysis", .str text),
             ("timestamp", .str (isoformat tTA))])] tTS =
          .ok (savedStore (savedStore (savedStore s "analyses"
            ("analysis_" ++ strftimeCompact tAnName) analysis tAnSave)
            "metrics" "latest"
            [("last_commit", .obj [("timestamp", tsv),
               ("files_changed", .num (fcs.length : Int)),
               ("analysis", anv)]),
             ("generated_at", .str (isoformat tMetrics))] tMetSave)
            "tasks" ("task_" ++ strftimeCompact tTaskId)
            [("id", .str ("task_" ++ strftimeCompact tTaskId)),
             ("title", .str "Review Major Code Changes"),
             ("description", .str ("Significant changes detected in commit:\n"
               ++ pyStr anv)),
             ("priority", .str "high"), ("status", .str "created"),
             ("created_at", .str (isoformat tTC)),
             ("updated_at", .str (isoformat tTU)),
             ("analysis", .obj [("analysis", .str text),
               ("timestamp", .str (isoformat tTA))])] tTS) := by
        unfold save_data
        rw [if_pos hdT2]
      have hneA3 : ¬(("analyses" : String) = "tasks" ∧
          ("analysis_" ++ strftimeCompact tAnName) =
            ("task_" ++ strftimeCompact tTaskId)) := by simp
      have hneA2 : ¬(("analyses" : String) = "metrics" ∧
          ("analysis_" ++ strftimeCompact tAnName) = "latest") := by simp
      have hneM3 : ¬(("metrics" : String) = "tasks" ∧
          ("latest" : String) = ("task_" ++ strftimeCompact tTaskId)) := by simp
      refine ⟨_, heq, ?_, ?_, ?_, fun h => absurd h (by omega)⟩
      · rw [load_data_save_data_ne hsave3 hneA3,
          load_data_save_data_ne hsave2 hneA2,
          load_data_save_data_self hsave1]
      · rw [load_data_save_data_ne hsave3 hneM3,
          load_data_save_data_self hsave2]
      · intro _
        constructor
        · rw [list_files_save_data hsave3 "tasks"]
          have hcn : ("task_" ++ strftimeCompact tTaskId) ∉
              catNames (savedStore (savedStore s "analyses"
                ("analysis_" ++ strftimeCompact tAnName) analysis tAnSave)
                "metrics" "latest"
                [("last_commit", .obj [("timestamp", tsv),
                   ("files_changed", .num (fcs.length : Int)),
                   ("analysis", anv)]),
                 ("generated_at", .str (isoformat tMetrics))]
                tMetSave).files "tasks" := by
            have : catNames (savedStore (savedStore s "analyses"
                ("analysis_" ++ strftimeCompact tAnName) analysis tAnSave)
                "metrics" "latest"
                [("last_commit", .obj [("timestamp", tsv),
                   ("files_changed", .num (fcs.length : Int)),
                   ("analysis", anv)]),
                 ("generated_at", .str (isoformat tMetrics))]
                tMetSave).files "tasks" = list_files s "tasks" := by
              rw [← ht2]
              unfold list_files
              rw [if_pos hdT2]
            rw [this]
            exact hfresh
          rw [if_pos ⟨rfl, hcn⟩, ht2]
        · refine ⟨_, load_data_save_data_self hsave3, rfl, rfl⟩
    · have heq : process_commit_analysis s analysis tAnName tAnSave tMetrics
          tMetSave (.ok text) tTaskId tTA tTC tTU tTS =
          (savedStore (savedStore s "analyses"
            ("analysis_" ++ strftimeCompact tAnName) analysis tAnSave)
            "metrics" "latest"
            [("last_commit", .obj [("timestamp", tsv),
               ("files_changed", .num (fcs.length : Int)), ("analysis", anv)]),
             ("generated_at", .str (isoformat tMetrics))] tMetSave,
           .ok ()) := by
        simp only [process_commit_analysis, hst, hts, hfc, han, pyLen,
          save_analysis, hsave1, hs2]
        have hn5 : ¬ (fcs.length > 5) := by omega
        simp [hn5]
      have hneA2 : ¬(("analyses" : String) = "metrics" ∧
          ("analysis_" ++ strftimeCompact tAnName) = "latest") := by simp
      refine ⟨_, heq, ?_, load_data_save_data_self hsave2,
        fun h => absurd h (by omega), fun _ => ht2⟩
      rw [load_data_save_data_ne hsave2 hneA2,
        load_data_save_data_self hsave1]

/-- C4 witness: a success analysis with 6 changed files on a fresh store
yields exactly one new high-priority task; with 5 files, no new task. -/
theorem c4_witness :
    (∃ s', process_commit_analysis initStore
        [("status", .str "success"), ("timestamp", .str "t"),
         ("files_changed", .arr [.str "a", .str "b", .str "c", .str "d",
           .str "e", .str "f"]), ("analysis", .str "big change")]
        wDT wDT wDT wDT (.ok "task analysis") wDT wDT wDT wDT wDT =
        (s', .ok ()) ∧
      load_data s' "analyses" ("analysis_" ++ strftimeCompact wDT) =
        .ok (some (.obj (setKey
          [("status", Json.str "success"), ("timestamp", .str "t"),
           ("files_changed", .arr [.str "a", .str "b", .str "c", .str "d",
             .str "e", .str "f"]), ("analysis", .str "big change")]
          "last_updated" (.str (isoformat wDT))))) ∧
      load_data s' "metrics" "latest" =
        .ok (some (.obj (setKey
          [("last_commit", Json.obj [("timestamp", .str "t"),
             ("files_changed", .num 6), ("analysis", .str "big change")]),
           ("generated_at", .str (isoformat wDT))]
          "last_updated" (.str (isoformat wDT))))) ∧
      (5 < ([Json.str "a", .str "b", .str "c", .str "d", .str "e",
          .str "f"] : List Json).length →
        list_files s' "tasks" =
          list_files initStore "tasks" ++ ["task_" ++ strftimeCompact wDT] ∧
        ∃ fields,
          load_data s' "tasks" ("task_" ++ strftimeCompact wDT) =
            .ok (some (.obj fields)) ∧
          getKey fields "priority" = some (.str "high") ∧
          getKey fields "status" = some (.str "created")) ∧
      (([Json.str "a", .str "b", .str "c", .str "d", .str "e",
          .str "f"] : List Json).length ≤ 5 →
        list_files s' "tasks" = list_files initStore "tasks")) ∧
    (∃ s', process_commit_analysis initStore
        [("status", .str "success"), ("timestamp", .str "t"),
         ("files_changed", .arr [.str "a", .str "b", .str "c", .str "d",
           .str "e"]), ("analysis", .str "small change")]
        wDT wDT wDT wDT (.ok "task analysis") wDT wDT wDT wDT wDT =
        (s', .ok ()) ∧
      load_data s' "analyses" ("analysis_" ++ strftimeCompact wDT) =
        .ok (some (.obj (setKey
          [("status", Json.str "success"), ("timestamp", .str "t"),
           ("files_changed", .arr [.str "a", .str "b", .str "c", .str "d",
             .str "e"]), ("analysis", .str "small change")]
          "last_updated" (.str (isoformat wDT))))) ∧
      load_data s' "metrics" "latest" =
        .ok (some (.obj (setKey
          [("last_commit", Json.obj [("timestamp", .str "t"),
             ("files_changed", .num 5), ("analysis", .str "small change")]),
           ("generated_at", .str (isoformat wDT))]
          "last_updated" (.str (isoformat wDT))))) ∧
      (5 < ([Json.str "a", .str "b", .str "c", .str "d", .str "e"] :
          List Json).length →
        list_files s' "tasks" =
          list_files initStore "tasks" ++ ["task_" ++ strftimeCompact wDT] ∧
        ∃ fields,
          load_data s' "tasks" ("task_" ++ strftimeCompact wDT) =
            .ok (some (.obj fields)) ∧
          getKey fields "priority" = some (.str "high") ∧
          getKey fields "status" = some (.str "created")) ∧
      (([Json.str "a", .str "b", .str "c", .str "d", .str "e"] :
          List Json).length ≤ 5 →
        list_files s' "tasks" = list_files initStore "tasks")) :=
  ⟨(c4_process_commit_analysis initStore
      [("status", .str "success"), ("timestamp", .str "t"),
       ("files_changed", .arr [.str "a", .str "b", .str "c", .str "d",
         .str "e", .str "f"]), ("analysis", .str "big change")]
      wDT wDT wDT wDT "task analysis" wDT wDT wDT wDT wDT).2
    rfl _ _ _ rfl rfl rfl (by decide) (by decide) (by decide) (by decide),
   (c4_process_commit_analysis initStore
      [("status", .str "success"), ("timestamp", .str "t"),
       ("files_changed", .arr [.str "a", .str "b", .str "c", .str "d",
         .str "e"]), ("analysis", .str "small change")]
      wDT wDT wDT wDT "task analysis" wDT wDT wDT wDT wDT).2
    rfl _ _ _ rfl rfl rfl (by decide) (by decide) (by decide) (by decide)⟩

/-! ### C6 -/

theorem hasStatus_ne_false (t : Json) (s1 s2 : String) (h : s1 ≠ s2)
    (h1 : hasStatus t s1 = true) : hasStatus t s2 = false := by
  cases t with
  | obj f =>
      cases hg : getKey f "status" with
      | none =>
          show (match getKey f "status" with
            | some (.str x) => decide (x = s2) | _ => false) = false
          rw [hg]
      | some j =>
          cases j with
          | str s' =>
              have h1' : decide (s' = s1) = true := by
                have he : hasStatus (.obj f) s1 = (match getKey f "status" with
                  | some (.str x) => decide (x = s1) | _ => false) := rfl
                rw [he, hg] at h1
                exact h1
              have hs : s' = s1 := of_decide_eq_true h1'
              show (match getKey f "status" with
                | some (.str x) => decide (x = s2) | _ => false) = false
              rw [hg]
              show decide (s' = s2) = false
              subst hs
              exact decide_eq_false h
          | null =>
              show (match getKey f "status" with
                | some (.str x) => decide (x = s2) | _ => false) = false
              rw [hg]
          | bool b =>
              show (match getKey f "status" with
                | some (.str x) => decide (x = s2) | _ => false) = false
              rw [hg]
          | num n =>
              show (match getKey f "status" with
                | some (.str x) => decide (x = s2) | _ => false) = false
              rw [hg]
          | arr l =>
              show (match getKey f "status" with
                | some (.str x) => decide (x = s2) | _ => false) = false
              rw [hg]
          | obj g =>
              show (match getKey f "status" with
                | some (.str x) => decide (x = s2) | _ => false) = false
              rw [hg]
  | null => rfl
  | bool b => rfl
  | num n => rfl
  | str st => rfl
  | arr l => rfl

/-- C6: the status_breakdown of generate_task_summary counts tasks in
exactly the three conventional statuses; a task with any other status value
is counted in none of the buckets, so the three counts sum to at most the
total task count, with equality exactly when every task's status is one of
the three conventional values. -/
theorem c6_status_breakdown :
    (∀ tasks : List Json,
      countStatus tasks "created" + countStatus tasks "in_progress" +
          countStatus tasks "completed" ≤ tasks.length ∧
      (countStatus tasks "created" + countStatus tasks "in_progress" +
          countStatus tasks "completed" = tasks.length ↔
        ∀ t ∈ tasks, hasStatus t "created" = true ∨
          hasStatus t "in_progress" = true ∨
          hasStatus t "completed" = true)) ∧
    (∀ (s : Store) (collab : Except String String) (tGen : DateTime)
        (tasks : List Json) (j : Json),
      list_tasks s none = .ok tasks → tasks ≠ [] →
      generate_task_summary s collab tGen = .ok j →
      ∃ f, j = .obj f ∧
        getKey f "status_breakdown" = some (.obj (status_breakdown tasks))) := by
  constructor
  · intro tasks
    induction tasks with
    | nil => simp [countStatus]
    | cons t rest ih =>
        obtain ⟨ih1, ih2⟩ := ih
        have hc : ∀ st, countStatus (t :: rest) st =
            countStatus rest st + (if hasStatus t st then 1 else 0) :=
          fun st => List.countP_cons _ _ _
        rw [hc, hc, hc]
        by_cases h1 : hasStatus t "created" = true
        · have h2 := hasStatus_ne_false t _ "in_progress" (by decide) h1
          have h3 := hasStatus_ne_false t _ "completed" (by decide) h1
          simp only [h1, h2, h3, if_true, Bool.false_eq_true, if_false,
            List.length_cons, List.mem_cons]
          refine ⟨by omega, ?_, ?_⟩
          · intro he x hx
            rcases hx with rfl | hx
            · exact Or.inl h1
            · exact (ih2.mp (by omega)) x hx
          · intro hall
            have := ih2.mpr (fun x hx => hall x (Or.inr hx))
            omega
        · have h1' : hasStatus t "created" = false :=
            (Bool.not_eq_true _).mp h1
          by_cases h2 : hasStatus t "in_progress" = true
          · have h3 := hasStatus_ne_false t _ "completed" (by decide) h2
            simp only [h1', h2, h3, if_true, Bool.false_eq_true, if_false,
              List.length_cons, List.mem_cons]
            refine ⟨by omega, ?_, ?_⟩
            · intro he x hx
              rcases hx with rfl | hx
              · exact Or.inr (Or.inl h2)
              · exact (ih2.mp (by omega)) x hx
            · intro hall
              have := ih2.mpr (fun x hx => hall x (Or.inr hx))
              omega
          · have h2' : hasStatus t "in_progress" = false :=
              (Bool.not_eq_true _).mp h2
            by_cases h3 : hasStatus t "completed" = true
            · simp only [h1', h2', h3, if_true, Bool.false_eq_true, if_false,
                List.length_cons, List.mem_cons]
              refine ⟨by omega, ?_, ?_⟩
              · intro he x hx
                rcases hx with rfl | hx
                · exact Or.inr (Or.inr h3)
                · exact (ih2.mp (by omega)) x hx
              · intro hall
                have := ih2.mpr (fun x hx => hall x (Or.inr hx))
                omega
            · have h3' : hasStatus t "completed" = false :=
                (Bool.not_eq_true _).mp h3
              simp only [h1', h2', h3', Bool.false_eq_true, if_false,
                List.length_cons, List.mem_cons]
              refine ⟨by omega, ?_, ?_⟩
              · intro he
                exact absurd he (by omega)
              · intro hall
                rcases hall t (Or.inl rfl) with h' | h' | h'
                · exact absurd h' h1
                · exact absurd h' h2
                · exact absurd h' h3
  · intro s collab tGen tasks j hlist hne hgen
    unfold generate_task_summary at hgen
    simp only [hlist] at hgen
    have hni : tasks.isEmpty = false := by
      cases tasks with
      | nil => exact absurd rfl hne
      | cons a l => rfl
    rw [hni] at hgen
    by_cases hall : tasks.all taskFormatOk = true
    · rw [hall] at hgen
      simp only [Bool.false_eq_true, if_false, if_true] at hgen
      cases collab with
      | error msg => cases hgen
      | ok text =>
          cases hgen
          exact ⟨_, rfl, rfl⟩
    · have hall' : tasks.all taskFormatOk = false :=
        (Bool.not_eq_true _).mp hall
      rw [hall'] at hgen
      simp only [Bool.false_eq_true, if_false] at hgen
      cases hgen

/-- C6 witness: the spec's example — statuses created, created, done give
buckets summing to 2, strictly below the total 3 — plus the tie to a
concrete generate_task_summary run on a one-task store. -/
theorem c6_witness :
    (countStatus [Json.obj [("status", Json.str "created")],
        .obj [("status", .str "created")], .obj [("status", .str "done")]]
        "created" +
      countStatus [Json.obj [("status", Json.str "created")],
        .obj [("status", .str "created")], .obj [("status", .str "done")]]
        "in_progress" +
      countStatus [Json.obj [("status", Json.str "created")],
        .obj [("status", .str "created")], .obj [("status", .str "done")]]
        "completed" ≤ 3) ∧
    ∃ f, (Json.obj [("summary", .str "ok"), ("task_count", .num 1),
        ("status_breakdown", .obj (status_breakdown
          [.obj [("id", .str "t1"), ("title", .str "T"),
            ("status", .str "created"), ("priority", .str "low")]])),
        ("generated_at", .str (isoformat wDT))]) = .obj f ∧
      getKey f "status_breakdown" = some (.obj (status_breakdown
        [.obj [("id", .str "t1"), ("title", .str "T"),
          ("status", .str "created"), ("priority", .str "low")]])) :=
  ⟨(c6_status_breakdown.1 _).1,
   c6_status_breakdown.2
     ⟨["tasks", "progress", "metrics", "analyses"],
      [(("tasks", "t1"), .validJson (.obj [("id", .str "t1"),
        ("title", .str "T"), ("status", .str "created"),
        ("priority", .str "low")]))]⟩
     (.ok "ok") wDT
     [.obj [("id", .str "t1"), ("title", .str "T"),
       ("status", .str "created"), ("priority", .str "low")]]
     (.obj [("summary", .str "ok"), ("task_count", .num 1),
       ("status_breakdown", .obj (status_breakdown
         [.obj [("id", .str "t1"), ("title", .str "T"),
           ("status", .str "created"), ("priority", .str "low")]])),
       ("generated_at", .str (isoformat wDT))])
     rfl (by simp) rfl⟩

/-! ### C7 -/

/-- C7 (code bug): generate_report does not persist the report.  The
`reports` category directory is never created — ensure_directories creates
only the four fixed categories and `Path.open('w')` creates no parent
directories — so the save into `reports` fails with FileNotFoundError even
when every collaborator call succeeds, and the wrapping RuntimeError
surfaces; no reports/<name>.json file is ever written. -/
theorem c7_generate_report_fails :
    (generate_report initStore "markdown" (.ok "s1") (.ok "s2")
        (.ok "risk text") (.ok "report text")
        wDT wDT wDT wDT wDT wDT wDT wDT).2 =
      .error (.runtimeError "Failed to generate project report") ∧
    list_files (generate_report initStore "markdown" (.ok "s1") (.ok "s2")
        (.ok "risk text") (.ok "report text")
        wDT wDT wDT wDT wDT wDT wDT wDT).1 "reports" = [] ∧
    "reports" ∉ (generate_report initStore "markdown" (.ok "s1") (.ok "s2")
        (.ok "risk text") (.ok "report text")
        wDT wDT wDT wDT wDT wDT wDT wDT).1.dirs ∧
    (∀ (s : Store) (name : String) (data : List (String × Json))
        (t : DateTime), "reports" ∉ s.dirs →
      save_data s "reports" name data t = .error .fileNotFound) ∧
    (∀ s : Store,
      "reports" ∈ (ensure_directories s).dirs ↔ "reports" ∈ s.dirs) := by
  refine ⟨rfl, rfl, by decide, ?_, ?_⟩
  · intro s name data t h
    unfold save_data
    rw [if_neg h]
  · intro s
    have step : ∀ (ds : List String) (d : String), "reports" ≠ d →
        ("reports" ∈ (if d ∈ ds then ds else ds ++ [d]) ↔
          "reports" ∈ ds) := by
      intro ds d hd
      by_cases h : d ∈ ds
      · simp [h]
      · simp [h, hd]
    simp only [ensure_directories, List.foldl]
    rw [step _ _ (by decide), step _ _ (by decide), step _ _ (by decide),
      step _ _ (by decide)]

/-- C7 witness: the save failure and the ensure_directories fact applied at
concrete stores. -/
theorem c7_witness :
    save_data ⟨[], []⟩ "reports" "r1" [] wDT = .error .fileNotFound ∧
    ("reports" ∈ (ensure_directories ⟨[], []⟩).dirs ↔
      "reports" ∈ (⟨[], []⟩ : Store).dirs) :=
  ⟨c7_generate_report_fails.2.2.2.1 ⟨[], []⟩ "r1" [] wDT (by decide),
   c7_generate_report_fails.2.2.2.2 ⟨[], []⟩⟩

end ProjectTracker
